import Mathlib

/-!
Verification of the Zeart-Awards config builder (`tools/build_config.js`).

The script reads `config.source.json`, normalizes the free-text fields,
resolves every nominee of every nomination (strings that look like image
paths, `discord`/`member` objects resolved through the Discord member
endpoint, `custom` and `video` objects, and a pass-through for unknown
shapes) and writes `config.json` only when every nominee resolved.

The embedding below is a shallow one: JSON documents become the inductive
type `JVal`, JavaScript truthiness / `??` / `||` become explicit helper
functions, the HTTP layer becomes a pure function over a stream of
responses, and the module-level member cache becomes an explicit
`RunState` threaded through the resolution pipeline.  Fallible code
returns `Except String`.
-/

set_option autoImplicit false

namespace ZeartAwards

/-- A JSON value, as produced by `JSON.parse`.  Numbers are modelled as
rationals (`retry_after` is a fractional number of seconds); this keeps
the arithmetic exact where the source uses floating point. -/
inductive JVal where
  | jnull
  | jbool (b : Bool)
  | jnum (q : ℚ)
  | jstr (s : String)
  | jarr (elems : List JVal)
  | jobj (fields : List (String × JVal))
deriving Inhabited

/-- JavaScript truthiness of a value (`!n`, `if (title)`, `a || b`, ...). -/
def jsTruthy : JVal → Bool
  | .jnull => false
  | .jbool b => b
  | .jnum q => q != 0
  | .jstr s => s != ""
  | .jarr _ => true
  | .jobj _ => true

/-- Truthiness of a possibly-undefined value (`undefined` is `none`). -/
def truthyOpt : Option JVal → Bool
  | some v => jsTruthy v
  | none => false

/-- First-match lookup in an object's field list (`obj.key`). -/
def getKey {α : Type} : List (String × α) → String → Option α
  | [], _ => none
  | (k, v) :: rest, key => if k == key then some v else getKey rest key

/-- Replace the value of an existing key in place (JavaScript assignment
to a property that already exists keeps its position). -/
def setExisting : List (String × JVal) → String → JVal → List (String × JVal)
  | [], _, _ => []
  | (k0, v0) :: rest, k, v =>
    if k0 == k then (k0, v) :: setExisting rest k v else (k0, v0) :: setExisting rest k v

/-- JavaScript property assignment `obj[k] = v`: overwrite in place when
the key exists, otherwise append the key at the end. -/
def objSet (l : List (String × JVal)) (k : String) (v : JVal) : List (String × JVal) :=
  if (getKey l k).isSome then setExisting l k v else l ++ [(k, v)]

/-- JavaScript `delete obj[k]`. -/
def delKey (l : List (String × JVal)) (k : String) : List (String × JVal) :=
  l.filter (fun p => p.1 != k)

/-- Array indices as own enumerable string keys (`Object.keys` / spread
of an array). -/
def indexFields : ℕ → List JVal → List (String × JVal)
  | _, [] => []
  | i, x :: xs => (toString i, x) :: indexFields (i + 1) xs

/-- The own enumerable fields of a value when `typeof v === "object"` and
the value is truthy (plain objects and arrays); `none` for primitives. -/
def objectFields : JVal → Option (List (String × JVal))
  | .jobj fs => some fs
  | .jarr xs => some (indexFields 0 xs)
  | _ => none

/-- Property read `v.k` on a non-null value: field lookup on objects and
arrays, `undefined` on primitives. -/
def jget (v : JVal) (k : String) : Option JVal :=
  match objectFields v with
  | some fs => getKey fs k
  | none => none

/-- The spread-merge `\x7b...a, ...b\x7d`: every field of `b` overrides in
place or is appended after the fields of `a`. -/
def objMerge (a b : List (String × JVal)) : List (String × JVal) :=
  b.foldl (fun acc p => objSet acc p.1 p.2) a

/-- Number-to-string conversion used by string templates.  Integral
rationals print like JavaScript integers; the (unexercised) fractional
case is approximated by `num/den`. -/
def ratToJsString (q : ℚ) : String :=
  if q.den == 1 then toString q.num else toString q.num ++ "/" ++ toString q.den

mutual

/-- JavaScript string coercion `String(v)` (also used by template
literals). -/
def jsToString : JVal → String
  | .jnull => "null"
  | .jbool b => if b then "true" else "false"
  | .jnum q => ratToJsString q
  | .jstr s => s
  | .jarr xs => String.intercalate "," (jsToStringList xs)
  | .jobj _ => "[object Object]"

def jsToStringList : List JVal → List String
  | [] => []
  | x :: xs => jsToString x :: jsToStringList xs

end

/-- `String(v)` for a possibly-undefined value (`String(undefined)` is
the string `undefined`, as in the avatar URL template). -/
def jsToStringOpt : Option JVal → String
  | some v => jsToString v
  | none => "undefined"

/-- The chain `a || b || ... || dflt` over property reads: the first
truthy value, else the default. -/
def jsOrChain : List (Option JVal) → JVal → JVal
  | [], dflt => dflt
  | o :: os, dflt =>
    match o with
    | some v => if jsTruthy v then v else jsOrChain os dflt
    | none => jsOrChain os dflt

/-- A present, non-null field (one step of a `??` chain). -/
def getNonNull (fields : List (String × JVal)) (k : String) : Option JVal :=
  match getKey fields k with
  | some .jnull => none
  | some v => some v
  | none => none

/-- The nullish-coalescing chain `n.k1 ?? n.k2 ?? ...`: the first
present non-null field value. -/
def nnChain (fields : List (String × JVal)) : List String → Option JVal
  | [] => none
  | k :: ks =>
    match getNonNull fields k with
    | some v => some v
    | none => nnChain fields ks

/-! ### Text defaults and `normalizeTexts` -/

/-- The default-text table of the builder (`DEFAULT_TEXTS`). -/
structure TextDefaults where
  siteTitle : String
  siteSubtitle : String
  prefaceTitle : String
  prefaceText : String
  afterwordTitle : String
  afterwordText : String

/-- Verbatim default values from `tools/build_config.js`. -/
def DEFAULT_TEXTS : TextDefaults where
  siteTitle := "Zeart Awards 2025"
  siteSubtitle := "Годовые номинации участников Zeart"
  prefaceTitle := "Добро пожаловать на Zeart Awards 2025"
  prefaceText := "Здесь собраны годовые номинации участников Zeart. Листай вниз и выбирай свою любимую номинацию — а мы устроим праздник при каждом открытии."
  afterwordTitle := "Спасибо, что были с Zeart!"
  afterwordText := "Это был мощный год. Увидимся на следующих номинациях — и да начнётся новый сезон легенд ✨"

/-- Whether the field is nullish (absent or `null`), the guard of `??=`. -/
def isNullishAt (fields : List (String × JVal)) (k : String) : Bool :=
  match getKey fields k with
  | none => true
  | some .jnull => true
  | some _ => false

/-- The nullish assignment `obj.k ??= v`.  An `undefined` right-hand side
(`v = none`) is modelled as a no-op: in the source every key assigned this
way is unconditionally defaulted afterwards, so a key holding `undefined`
and an absent key are indistinguishable in the final document. -/
def setIfNullish (fields : List (String × JVal)) (k : String) (v : Option JVal) :
    List (String × JVal) :=
  match v with
  | none => fields
  | some jv => if isNullishAt fields k then objSet fields k jv else fields

/-- One nested-alias block of `normalizeTexts`:
`if (src?.obj && typeof src.obj === "object") \x7b src.tKey ??= src.obj.title;
src.xKey ??= src.obj.text; \x7d`.  A truthy non-object (or an array, whose
`title`/`text` reads give `undefined`) leaves the flat fields unchanged. -/
def applyAlias (l : List (String × JVal)) (objKey tKey xKey : String) :
    List (String × JVal) :=
  match getKey l objKey with
  | some (.jobj pf) =>
      setIfNullish (setIfNullish l tKey (getKey pf "title")) xKey (getKey pf "text")
  | _ => l

/-- The six `??=` default assignments of `normalizeTexts`, in source
order. -/
def applyDefaults (l : List (String × JVal)) : List (String × JVal) :=
  let s3 := setIfNullish l "siteTitle" (some (.jstr DEFAULT_TEXTS.siteTitle))
  let s4 := setIfNullish s3 "siteSubtitle" (some (.jstr DEFAULT_TEXTS.siteSubtitle))
  let s5 := setIfNullish s4 "prefaceTitle" (some (.jstr DEFAULT_TEXTS.prefaceTitle))
  let s6 := setIfNullish s5 "prefaceText" (some (.jstr DEFAULT_TEXTS.prefaceText))
  let s7 := setIfNullish s6 "afterwordTitle" (some (.jstr DEFAULT_TEXTS.afterwordTitle))
  setIfNullish s7 "afterwordText" (some (.jstr DEFAULT_TEXTS.afterwordText))

/-- `normalizeTexts(src)`: nested `preface`/`afterword` aliases, then the
six defaults, then `delete src.preface; delete src.afterword`. -/
def normalizeTexts (src : List (String × JVal)) : List (String × JVal) :=
  let s1 := applyAlias src "preface" "prefaceTitle" "prefaceText"
  let s2 := applyAlias s1 "afterword" "afterwordTitle" "afterwordText"
  delKey (delKey (applyDefaults s2) "preface") "afterword"

/-! ### Character-level string helpers

The JavaScript string methods used by the builder are modelled on the
character list of the string (the core `String` position-based versions
are not kernel-reducible), with JavaScript semantics: `trim`,
`toLowerCase`, `split("/")`, and suffix tests. -/

/-- `s.trim()`. -/
def jsTrim (s : String) : String :=
  String.mk (((s.data.dropWhile Char.isWhitespace).reverse.dropWhile Char.isWhitespace).reverse)

/-- `s.toLowerCase()` (ASCII, like `Char.toLower`). -/
def jsToLower (s : String) : String := String.mk (s.data.map Char.toLower)

/-- Worker for `split("/")`, accumulating the current segment reversed. -/
def splitSlashGo : List Char → List Char → List String
  | acc, [] => [String.mk acc.reverse]
  | acc, c :: cs =>
    if c == '/' then String.mk acc.reverse :: splitSlashGo [] cs
    else splitSlashGo (c :: acc) cs

/-- `s.split("/")` (never empty; `""` splits to `[""]`). -/
def splitOnSlash (s : String) : List String := splitSlashGo [] s.data

/-- Whether `suffix` is a suffix of `s` (the regex `...$` tests). -/
def strEndsWith (s suffix : String) : Bool :=
  List.isPrefixOf suffix.data.reverse s.data.reverse

/-- `s.startsWith(p)`. -/
def strStartsWith (s p : String) : Bool := List.isPrefixOf p.data s.data

/-! ### Image-path detection and filename-derived titles -/

/-- The extensions of the regex `/\.(png|jpg|jpeg|webp|gif|svg)$/i`. -/
def imageExts : List String := ["png", "jpg", "jpeg", "webp", "gif", "svg"]

/-- `looksLikeImagePath(s)`: a string whose trimmed value ends,
case-insensitively, in a dot followed by one of the image extensions. -/
def looksLikeImagePath : JVal → Bool
  | .jstr s => imageExts.any (fun e => strEndsWith (jsToLower (jsTrim s)) ("." ++ e))
  | _ => false

/-- The regex replacement `.replace(/\.[^.]+$/, "")`: drop the final
dot-extension when the last dot is followed by at least one character. -/
def stripExt (s : String) : String :=
  let r := s.data.reverse
  match r.findIdx? (· == '.') with
  | some i => if 1 ≤ i then String.mk ((r.drop (i + 1)).reverse) else s
  | none => s

def isSep (c : Char) : Bool := c == '_' || c == '-'

/-- Worker for the replacement `/[_-]+/g → " "`; the flag records
whether the previous character belonged to a separator run. -/
def sepSpacesGo : Bool → List Char → List Char
  | _, [] => []
  | inSep, c :: cs =>
    if isSep c then
      if inSep then sepSpacesGo true cs else ' ' :: sepSpacesGo true cs
    else c :: sepSpacesGo false cs

/-- `.replace(/[_-]+/g, " ")`: each run of `_`/`-` becomes one space. -/
def sepSpaces (s : String) : String := String.mk (sepSpacesGo false s.data)

/-- `s.split("/").pop() || s`: the last path segment, or the whole string
when the last segment is empty. -/
def lastSegment (s : String) : String :=
  let b := (splitOnSlash s).getLastD ""
  if b == "" then s else b

/-- The filename-derived title shared by the string shorthand and the
`custom`/`video` branches: last segment, extension stripped, separator
runs replaced by spaces, trimmed. -/
def deriveTitle (s : String) : String := jsTrim (sepSpaces (stripExt (lastSegment s)))

/-- The string-shorthand result of `resolveNominee`:
`\x7b type: "custom", imageUrl, title: title || undefined \x7d` (a `title`
holding `undefined` is dropped by `JSON.stringify`, so it is modelled as
an absent key). -/
def imageShorthand (s : String) : JVal :=
  let imageUrl := jsTrim s
  let title := deriveTitle imageUrl
  .jobj (("type", .jstr "custom") :: ("imageUrl", .jstr imageUrl) ::
    (if title == "" then [] else [("title", .jstr title)]))

/-! ### Reading back `??=` assignments -/

/-- The value a key holds after `k ??= jv` when it held `cur` before. -/
def nullishOr (cur : Option JVal) (jv : JVal) : JVal :=
  match cur with
  | none => jv
  | some .jnull => jv
  | some v => v

/-- The value a key holds after `k ??= rhs` where `rhs` may itself be
`undefined` (no-op, see `setIfNullish`). -/
def nullishApply (cur rhs : Option JVal) : Option JVal :=
  match rhs with
  | none => cur
  | some jv => some (nullishOr cur jv)

/-- The right-hand side `src.objKey.fieldKey` read by a nested-alias
assignment (`undefined` when the guard failed or the field is absent). -/
def aliasRead (l : List (String × JVal)) (objKey fieldKey : String) : Option JVal :=
  match getKey l objKey with
  | some (.jobj pf) => getKey pf fieldKey
  | _ => none

/-- A present non-null optional value (`null` and `undefined` collapse),
used to state which alias value effectively survives the later
defaulting. -/
def nonNullOpt : Option JVal → Option JVal
  | some .jnull => none
  | some v => some v
  | none => none

/-! ### The HTTP client `api` with pacing, rate-limit and 5xx retries -/

/-- One HTTP response as the client observes it: the status code, the
result of `res.json()` (which may fail to parse) and the text used in
error messages (`res.text()`). -/
structure Resp where
  status : ℕ
  json : Except String JVal
  text : String

/-- The observable outcome of one `api(path)` call: its result, the
durations (ms) passed to `sleep` between attempts, and how many HTTP
requests were issued. -/
structure ApiOut where
  result : Except String JVal
  sleeps : List ℕ
  fetches : ℕ

/-- `retries = 10` — the default bound of `api`. -/
def API_RETRIES : ℕ := 10

/-- The 429 branch's parse of the server wait: `body?.retry_after` when
it is a number, else the 1-second default (a failed `res.json()` is
swallowed by the `try/catch`). -/
def retryAfterSecOf (r : Resp) : ℚ :=
  match r.json with
  | .ok j =>
    match jget j "retry_after" with
    | some (.jnum q) => q
    | _ => 1
  | .error _ => 1

/-- `Math.ceil(sec * 1000)` computed on the numerator and denominator of
the rational (ceiling division by a positive denominator), keeping the
arithmetic kernel-evaluable. -/
def ceilSecToMs (q : ℚ) : ℤ :=
  Int.fdiv (q.num * 1000 + (q.den : ℤ) - 1) (q.den : ℤ)

/-- The jitter `50 + Math.floor(Math.random() * 120)`: the random draw is
modelled by an arbitrary stream `jit`, reduced mod 120 to keep the
documented range. -/
def jitterMs (jit : ℕ → ℕ) (attempt : ℕ) : ℕ := 50 + jit attempt % 120

/-- The retry loop of `api`, one unfolding per attempt.  `attempt` is the
loop counter; `fuel` is the number of remaining iterations (the loop runs
for `attempt = 0 .. retries`, so it starts at `retries + 1`).  The
`fuel = 0` case is the unreachable final `throw` of the source. -/
def apiLoop (path : String) (resp : ℕ → Resp) (jit : ℕ → ℕ) (retries : ℕ) :
    ℕ → ℕ → ApiOut
  | _, 0 => ⟨.error ("Discord API failed unexpectedly for " ++ path), [], 0⟩
  | attempt, fuel + 1 =>
    let r := resp attempt
    if r.status == 429 then
      if retries ≤ attempt then
        ⟨.error ("Discord API 429 after " ++ toString (retries + 1) ++ " attempts on " ++ path),
          [], 1⟩
      else
        let waitMs := Int.toNat (ceilSecToMs (retryAfterSecOf r)) + jitterMs jit attempt
        let rest := apiLoop path resp jit retries (attempt + 1) fuel
        ⟨rest.result, waitMs :: rest.sleeps, rest.fetches + 1⟩
    else if 500 ≤ r.status ∧ r.status ≤ 599 then
      if retries ≤ attempt then
        ⟨.error ("Discord API " ++ toString r.status ++ ": " ++ r.text), [], 1⟩
      else
        let backoffMs := 250 * (attempt + 1)
        let rest := apiLoop path resp jit retries (attempt + 1) fuel
        ⟨rest.result, backoffMs :: rest.sleeps, rest.fetches + 1⟩
    else if ¬ (200 ≤ r.status ∧ r.status < 300) then
      ⟨.error ("Discord API " ++ toString r.status ++ ": " ++ r.text), [], 1⟩
    else
      ⟨r.json, [], 1⟩

/-- `api(path, \x7b retries \x7d)` over a given response stream. -/
def apiRun (path : String) (resp : ℕ → Resp) (jit : ℕ → ℕ) (retries : ℕ) : ApiOut :=
  apiLoop path resp jit retries 0 (retries + 1)

/-! ### Member resolution and the in-run cache -/

/-- The profile object built by `fetchMember`.  `id` is `u.id`, which may
be `undefined` when the provider returns a malformed body; `name` is the
`display` chain and can be any truthy JSON value. -/
structure Member where
  id : Option JVal
  name : JVal
  tag : String
  avatarUrl : String

/-- `avatarUrl(userId, avatarHash)`.  A truthy non-string hash would hit
`avatarHash.startsWith` and throw. -/
def avatarUrlF (userId avatarHash : Option JVal) : Except String String :=
  if ¬ truthyOpt avatarHash then
    .ok "https://cdn.discordapp.com/embed/avatars/0.png"
  else
    match avatarHash with
    | some (.jstr h) =>
      let ext := if strStartsWith h "a_" then "gif" else "png"
      .ok ("https://cdn.discordapp.com/avatars/" ++ jsToStringOpt userId ++ "/" ++ h
        ++ "." ++ ext ++ "?size=256")
    | _ => .error "TypeError: avatarHash.startsWith is not a function"

/-- The body of `fetchMember` after a successful `api` call: `u = m.user
|| \x7b\x7d`, the `display` preference chain, the `@username` tag and the
avatar URL.  A `null` body throws on the `m.user` read. -/
def memberOfJson (key : String) (m : JVal) : Except String Member :=
  match m with
  | .jnull => .error "TypeError: cannot read properties of null"
  | _ =>
    let u : JVal :=
      match jget m "user" with
      | some v => if jsTruthy v then v else .jobj []
      | none => .jobj []
    let display : JVal :=
      jsOrChain [jget m "nick", jget u "global_name", jget u "username"] (.jstr key)
    let tag : String :=
      match jget u "username" with
      | some uv => if jsTruthy uv then "@" ++ jsToString uv else ""
      | none => ""
    match avatarUrlF (jget u "id") (jget u "avatar") with
    | .error e => .error e
    | .ok av => .ok ⟨jget u "id", display, tag, av⟩

/-- The module-level mutable state of one run: the `memberCache` and (as
instrumentation for the cache claims) the list of user ids for which the
member endpoint was actually called (`api` invoked; each such invocation
may internally retry per the client's backoff). -/
structure RunState where
  cache : List (String × Member)
  calls : List String

/-- The per-run environment: the guild id and, for each user id, the
stream of HTTP responses its endpoint would produce and the jitter
stream of the retry loop. -/
structure Ctx where
  guildId : String
  sched : String → ℕ → Resp
  jit : String → ℕ → ℕ

/-- `fetchMember(userId)`: serve from the cache when present; otherwise
call the member endpoint, build the profile, and cache it — a failed
lookup is evicted (never cached). -/
def fetchMember (ctx : Ctx) (st : RunState) (userId : JVal) :
    Except String Member × RunState :=
  let key := jsToString userId
  match getKey st.cache key with
  | some m => (.ok m, st)
  | none =>
    let path := "/guilds/" ++ ctx.guildId ++ "/members/" ++ key
    let st1 : RunState := ⟨st.cache, st.calls ++ [key]⟩
    match (apiRun path (ctx.sched key) (ctx.jit key) API_RETRIES).result with
    | .error e => (.error e, st1)
    | .ok j =>
      match memberOfJson key j with
      | .error e => (.error e, st1)
      | .ok m => (.ok m, ⟨st1.cache ++ [(key, m)], st1.calls⟩)

/-! ### `resolveNominee` -/

/-- `const type = (n.type || "").toLowerCase()`.  A truthy non-string
`type` has no `toLowerCase` method and throws. -/
def typeOfFields (fields : List (String × JVal)) : Except String String :=
  match getKey fields "type" with
  | none => .ok ""
  | some v =>
    if jsTruthy v then
      match v with
      | .jstr s => .ok (jsToLower s)
      | _ => .error "TypeError: n.type.toLowerCase is not a function"
    else .ok ""

/-- The field list spread from a resolved member,
`\x7b type, id, name, tag, avatarUrl \x7d` in declaration order; an
`undefined` `id` occupies its slot (placeholder `null`) until the final
explicit override settles it. -/
def memberBaseObj (m : Member) : List (String × JVal) :=
  [("type", .jstr "discord"), ("id", m.id.getD .jnull), ("name", m.name),
    ("tag", .jstr m.tag), ("avatarUrl", .jstr m.avatarUrl)]

/-- Set a key whose value may be `undefined`: `JSON.stringify` omits a
property holding `undefined`, so it is modelled as a delete. -/
def objSetOrDel (l : List (String × JVal)) (k : String) : Option JVal →
    List (String × JVal)
  | some v => objSet l k v
  | none => delKey l k

/-- The discord-branch result
`\x7b ...member, ...n, type: "discord", id: member.id, name: n.name ??
member.name, tag: n.tag ?? member.tag, avatarUrl: n.avatarUrl ??
member.avatarUrl \x7d`. -/
def buildDiscordObj (fields : List (String × JVal)) (m : Member) :
    List (String × JVal) :=
  let base := objMerge (memberBaseObj m) fields
  let o1 := objSet base "type" (.jstr "discord")
  let o2 := objSetOrDel o1 "id" m.id
  let o3 := objSet o2 "name" ((getNonNull fields "name").getD m.name)
  let o4 := objSet o3 "tag" ((getNonNull fields "tag").getD (.jstr m.tag))
  objSet o4 "avatarUrl" ((getNonNull fields "avatarUrl").getD (.jstr m.avatarUrl))

/-- The title-only `custom` result `\x7b type: "custom", title:
String(title).trim() \x7d`. -/
def titleOnlyCustom (t : JVal) : JVal :=
  .jobj [("type", .jstr "custom"), ("title", .jstr (jsTrim (jsToString t)))]

/-- The `custom` branch of `resolveNominee`: image from the
`imageUrl ?? path ?? src ?? url` chain; without an image, a truthy
`title ?? name ?? text` yields a title-only entry and otherwise the
nominee is skipped; with an image, a missing title is derived from the
filename. -/
def customBranch (fields : List (String × JVal)) : Except String (Option JVal) :=
  let imageUrl := nnChain fields ["imageUrl", "path", "src", "url"]
  let title0 := nnChain fields ["title", "name", "text"]
  if truthyOpt imageUrl then
    let ivs := jsToString (imageUrl.getD .jnull)
    let title : JVal :=
      match title0 with
      | some tv => if jsTruthy tv then tv else .jstr (deriveTitle ivs)
      | none => .jstr (deriveTitle ivs)
    let base := [("type", .jstr "custom"), ("imageUrl", .jstr ivs)]
    .ok (some (.jobj (if jsTruthy title then
      base ++ [("title", .jstr (jsTrim (jsToString title)))] else base)))
  else
    match title0 with
    | some tv => if jsTruthy tv then .ok (some (titleOnlyCustom tv)) else .ok none
    | none => .ok none

/-- The `video` branch: `videoUrl` is required (`throw` when falsy or
absent); optional truthy `posterUrl`; `title` (no `??` chain here)
defaults to the filename derivation, and is passed through `String`
without trimming. -/
def videoBranch (fields : List (String × JVal)) : Except String (Option JVal) :=
  let req : Except String (Option JVal) := .error "Video nominee is missing \"videoUrl\""
  match getKey fields "videoUrl" with
  | none => req
  | some vv =>
    if jsTruthy vv then
      let vs := jsToString vv
      let b1 := [("type", .jstr "video"), ("videoUrl", .jstr vs)]
      let b2 :=
        match getKey fields "posterUrl" with
        | some pv => if jsTruthy pv then b1 ++ [("posterUrl", .jstr (jsToString pv))] else b1
        | none => b1
      let title : JVal :=
        match getKey fields "title" with
        | some tv => if jsTruthy tv then tv else .jstr (deriveTitle vs)
        | none => .jstr (deriveTitle vs)
      .ok (some (.jobj (if jsTruthy title then
        b2 ++ [("title", .jstr (jsToString title))] else b2)))
    else req

/-- The branches of `resolveNominee` after the discord test failed:
`custom`, `video`, and the unknown pass-through
`\x7b ...n, type: type || "unknown" \x7d`.  These branches are pure — they
neither consult nor change the cache. -/
def resolveTail (fields : List (String × JVal)) (ty : String) :
    Except String (Option JVal) :=
  if ty == "custom" then customBranch fields
  else if ty == "video" then videoBranch fields
  else .ok (some (.jobj (objSet fields "type" (.jstr (if ty == "" then "unknown" else ty)))))

/-- `resolveNominee(n)`: falsy values and non-objects resolve to nothing,
image-path strings become `custom` shorthands, empty objects are skipped,
`discord`/`member`/untyped objects with a truthy `id` are resolved
through `fetchMember`, and the rest goes through `resolveTail`. -/
def resolveNominee (ctx : Ctx) (st : RunState) (n : JVal) :
    Except String (Option JVal) × RunState :=
  if ¬ jsTruthy n then (.ok none, st)
  else if looksLikeImagePath n then (.ok (some (imageShorthand (jsToString n))), st)
  else
    match objectFields n with
    | none => (.ok none, st)
    | some fields =>
      if fields.isEmpty then (.ok none, st)
      else
        match typeOfFields fields with
        | .error e => (.error e, st)
        | .ok ty =>
          match getKey fields "id" with
          | some idv =>
            if (ty == "" || ty == "discord" || ty == "member") && jsTruthy idv then
              match fetchMember ctx st idv with
              | (.ok m, st1) => (.ok (some (.jobj (buildDiscordObj fields m))), st1)
              | (.error e, st1) => (.error e, st1)
            else (resolveTail fields ty, st)
          | none => (resolveTail fields ty, st)

/-! ### The main pipeline -/

/-- The inner loop of `main`: resolve the nominees of one nomination in
order, dropping entries that resolve to nothing, aborting on the first
error. -/
def resolveAll (ctx : Ctx) : RunState → List JVal → Except String (List JVal) × RunState
  | st, [] => (.ok [], st)
  | st, n :: rest =>
    match resolveNominee ctx st n with
    | (.error e, st1) => (.error e, st1)
    | (.ok r, st1) =>
      match resolveAll ctx st1 rest with
      | (.error e, st2) => (.error e, st2)
      | (.ok out, st2) =>
        (.ok (match r with | some v => v :: out | none => out), st2)

/-- `for (const x of v)` over a truthy value: arrays yield their
elements, strings their characters, anything else is not iterable. -/
def jsIterate : JVal → Except String (List JVal)
  | .jarr xs => .ok xs
  | .jstr s => .ok (s.data.map (fun c => .jstr (String.mk [c])))
  | _ => .error "TypeError: value is not iterable"

/-- `v || []` followed by iteration (`src.nominations || []`,
`nom.nominees || []`): a falsy or absent value iterates as empty. -/
def orEmptyList (o : Option JVal) : Except String (List JVal) :=
  match o with
  | some v => if jsTruthy v then jsIterate v else .ok []
  | none => .ok []

/-- `nom.nominees = out`.  In strict mode (ES module) assignment to a
property of a primitive throws; on an array the assignment succeeds but
the non-index property is invisible to `JSON.stringify`, so the value is
unchanged as a JSON document. -/
def setNomineesProp (nom : JVal) (v : JVal) : Except String JVal :=
  match nom with
  | .jobj fs => .ok (.jobj (objSet fs "nominees" v))
  | .jarr xs => .ok (.jarr xs)
  | _ => .error "TypeError: cannot create property on primitive"

/-- One iteration of the nomination loop of `main`. -/
def processNomination (ctx : Ctx) (st : RunState) (nom : JVal) :
    Except String JVal × RunState :=
  match nom with
  | .jnull => (.error "TypeError: cannot read properties of null", st)
  | _ =>
    match orEmptyList (jget nom "nominees") with
    | .error e => (.error e, st)
    | .ok ns =>
      match resolveAll ctx st ns with
      | (.error e, st1) => (.error e, st1)
      | (.ok out, st1) =>
        match setNomineesProp nom (.jarr out) with
        | .error e => (.error e, st1)
        | .ok nom1 => (.ok nom1, st1)

/-- The nomination loop of `main`, mutating each nomination in place. -/
def buildNominations (ctx : Ctx) : RunState → List JVal → Except String (List JVal) × RunState
  | st, [] => (.ok [], st)
  | st, nom :: rest =>
    match processNomination ctx st nom with
    | (.error e, st1) => (.error e, st1)
    | (.ok nom1, st1) =>
      match buildNominations ctx st1 rest with
      | (.error e, st2) => (.error e, st2)
      | (.ok rest1, st2) => (.ok (nom1 :: rest1), st2)

/-- The fresh module state of one process run. -/
def initialState : RunState := ⟨[], []⟩

/-- `main()` on an already-parsed source document (the schema fixes the
top level to be an object): normalize the texts, resolve every nominee of
every nomination, and produce the document that would be written to
`config.json` — or the error that aborts the run with exit code 1, in
which case nothing is written.  The final `RunState` is also returned so
the cache behaviour can be observed. -/
def buildConfig (ctx : Ctx) (src : List (String × JVal)) :
    Except String (List (String × JVal)) × RunState :=
  let src1 := normalizeTexts src
  match orEmptyList (getKey src1 "nominations") with
  | .error e => (.error e, initialState)
  | .ok noms =>
    match buildNominations ctx initialState noms with
    | (.error e, st) => (.error e, st)
    | (.ok noms1, st) =>
      let out :=
        match getKey src1 "nominations" with
        | some (.jarr _) => objSet src1 "nominations" (.jarr noms1)
        | _ => src1
      (.ok out, st)

/-- Whether an `Except` is a success. -/
def exOk {α : Type} : Except String α → Bool
  | .ok _ => true
  | .error _ => false

/-! ### Serialization (`JSON.stringify`) -/

/-- Minimal JSON string escaping (quotes and backslashes); enough for a
deterministic serialization model. -/
def escapeJson (s : String) : String :=
  String.mk (s.data.flatMap (fun c =>
    if c == '"' then ['\\', '"'] else if c == '\\' then ['\\', '\\'] else [c]))

mutual

/-- A compact model of `JSON.stringify` — deterministic in the value; the
pretty-printing indentation of the source is irrelevant to the equality
claims and omitted. -/
def jsonStr : JVal → String
  | .jnull => "null"
  | .jbool b => if b then "true" else "false"
  | .jnum q => ratToJsString q
  | .jstr s => "\"" ++ escapeJson s ++ "\""
  | .jarr xs => "[" ++ String.intercalate "," (jsonStrList xs) ++ "]"
  | .jobj fs => "\x7b" ++ String.intercalate "," (jsonStrFields fs) ++ "\x7d"

def jsonStrList : List JVal → List String
  | [] => []
  | x :: xs => jsonStr x :: jsonStrList xs

def jsonStrFields : List (String × JVal) → List String
  | [] => []
  | (k, v) :: fs => ("\"" ++ escapeJson k ++ "\":" ++ jsonStr v) :: jsonStrFields fs

end

/-- The bytes `main` writes to `config.json` on success. -/
def serializeDoc (doc : List (String × JVal)) : String := jsonStr (.jobj doc)

/-! ### Concrete environments for evaluation -/

/-- A trivial environment: every member request succeeds immediately with
a fixed body echoing the requested id. -/
def ctx0 : Ctx where
  guildId := "g"
  sched := fun uid _ =>
    ⟨200, .ok (.jobj [("user", .jobj [("id", .jstr uid), ("username", .jstr "zea")])]), ""⟩
  jit := fun _ _ => 0

/-- The title formula exactly as claim C6 words it: the last path segment
of the trimmed input with the extension stripped and runs of
underscore/hyphen replaced by spaces — without the final trim the code
performs. -/
def specTitleC6 (s : String) : String := sepSpaces (stripExt (lastSegment (jsTrim s)))

/-- The fixed identity oracle used by the determinism witness. -/
def oracleW : String → JVal :=
  fun uid => .jobj [("user", .jobj [("id", .jstr uid), ("username", .jstr "zea")])]

/-- A second environment answering each id with one rate-limit response
and then success, under a different jitter stream than `ctx0`. -/
def ctxW2 : Ctx where
  guildId := "g"
  sched := fun uid i =>
    match i with
    | 0 => ⟨429, .error "rate", ""⟩
    | _ + 1 => ⟨200, .ok (oracleW uid), ""⟩
  jit := fun _ _ => 3

/-- The determinism-witness document: one nomination with a discord
nominee and an image shorthand. -/
def srcW : List (String × JVal) :=
  [("nominations", .jarr [.jobj [("name", .jstr "Best"),
    ("nominees", .jarr [.jobj [("id", .jstr "42")], .jstr "a.png"])]])]

/-- The document of a successful run (empty on error). -/
def exceptValD : Except String (List (String × JVal)) → List (String × JVal)
  | .ok v => v
  | .error _ => []

/-! ### Specification-level predicates and concrete documents -/

/-- The calls log is duplicate-free and every logged id is cached — the
invariant maintained while a run keeps succeeding. -/
def CallsOK (st : RunState) : Prop :=
  st.calls.Nodup ∧ ∀ k : String, k ∈ st.calls → (getKey st.cache k).isSome = true

/-- The member profile determined by an identity oracle alone: what
`fetchMember` computes for `key` when the endpoint answers with
`oracle key`. -/
def canonMember (oracle : String → JVal) (key : String) : Except String Member :=
  memberOfJson key (oracle key)

/-- A response schedule is faithful to an identity oracle when every
response for an id is a 429, a 5xx, or a success whose body parses to the
oracle's fixed answer for that id: the external identity state is fixed
while rate-limiting, transient errors and timing may vary freely. -/
def Faithful (ctx : Ctx) (oracle : String → JVal) : Prop :=
  ∀ (id : String) (i : ℕ),
    (ctx.sched id i).status = 429
    ∨ (500 ≤ (ctx.sched id i).status ∧ (ctx.sched id i).status ≤ 599)
    ∨ (200 ≤ (ctx.sched id i).status ∧ (ctx.sched id i).status < 300
        ∧ (ctx.sched id i).json = .ok (oracle id))

/-- Every cached member is the one the oracle determines. -/
def CacheCanon (oracle : String → JVal) (st : RunState) : Prop :=
  ∀ (k : String) (m : Member), getKey st.cache k = some m → canonMember oracle k = .ok m

/-- The canonical (schedule-free) nominee resolution determined by the
identity oracle alone: structurally identical to `resolveNominee`, with
`fetchMember` replaced by `canonMember`.  Each real run refines this
function on success, which proves the output independent of pacing,
jitter and retry timing. -/
def resolveNomineeCanon (oracle : String → JVal) (n : JVal) :
    Except String (Option JVal) :=
  if ¬ jsTruthy n then .ok none
  else if looksLikeImagePath n then .ok (some (imageShorthand (jsToString n)))
  else
    match objectFields n with
    | none => .ok none
    | some fields =>
      if fields.isEmpty then .ok none
      else
        match typeOfFields fields with
        | .error e => .error e
        | .ok ty =>
          match getKey fields "id" with
          | some idv =>
            if (ty == "" || ty == "discord" || ty == "member") && jsTruthy idv then
              match canonMember oracle (jsToString idv) with
              | .ok m => .ok (some (.jobj (buildDiscordObj fields m)))
              | .error e => .error e
            else resolveTail fields ty
          | none => resolveTail fields ty

/-- Canonical counterpart of `resolveAll`. -/
def resolveAllCanon (oracle : String → JVal) : List JVal → Except String (List JVal)
  | [] => .ok []
  | n :: rest =>
    match resolveNomineeCanon oracle n with
    | .error e => .error e
    | .ok r =>
      match resolveAllCanon oracle rest with
      | .error e => .error e
      | .ok out => .ok (match r with | some v => v :: out | none => out)

/-- Canonical counterpart of `processNomination`. -/
def processNominationCanon (oracle : String → JVal) (nom : JVal) : Except String JVal :=
  match nom with
  | .jnull => .error "TypeError: cannot read properties of null"
  | _ =>
    match orEmptyList (jget nom "nominees") with
    | .error e => .error e
    | .ok ns =>
      match resolveAllCanon oracle ns with
      | .error e => .error e
      | .ok out => setNomineesProp nom (.jarr out)

/-- Canonical counterpart of `buildNominations`. -/
def buildNominationsCanon (oracle : String → JVal) : List JVal → Except String (List JVal)
  | [] => .ok []
  | nom :: rest =>
    match processNominationCanon oracle nom with
    | .error e => .error e
    | .ok nom1 =>
      match buildNominationsCanon oracle rest with
      | .error e => .error e
      | .ok rest1 => .ok (nom1 :: rest1)

/-- Canonical counterpart of `buildConfig`: the output document as a
function of the source document and the identity oracle alone. -/
def buildConfigCanon (oracle : String → JVal) (src : List (String × JVal)) :
    Except String (List (String × JVal)) :=
  match orEmptyList (getKey (normalizeTexts src) "nominations") with
  | .error e => .error e
  | .ok noms =>
    match buildNominationsCanon oracle noms with
    | .error e => .error e
    | .ok noms1 =>
      .ok (match getKey (normalizeTexts src) "nominations" with
        | some (.jarr _) => objSet (normalizeTexts src) "nominations" (.jarr noms1)
        | _ => normalizeTexts src)

/-- A small input document exercising both directions of the text-field
normalization. -/
def srcTextW : List (String × JVal) :=
  [("siteTitle", .jstr "S"), ("prefaceTitle", .jnull),
   ("preface", .jobj [("title", .jstr "PT")]),
   ("afterword", .jobj [("text", .jstr "AX")])]

/-- A document where a flat field and its alias are both present, another
flat field is supplied only by the alias, and a `null` flat field is
overridden by the alias. -/
def srcAliasW : List (String × JVal) :=
  [("prefaceTitle", .jstr "Keep"),
   ("preface", .jobj [("title", .jstr "Alias"), ("text", .jstr "TxtA")]),
   ("afterwordTitle", .jnull),
   ("afterword", .jobj [("title", .jstr "AwT")])]

/-! ### Lookup lemmas for the object-field operations -/

theorem getKey_append_none {α : Type} {l l2 : List (String × α)} {k : String}
    (h : getKey l k = none) : getKey (l ++ l2) k = getKey l2 k := by
  induction l with
  | nil => simp
  | cons p rest ih =>
    obtain ⟨k0, v0⟩ := p
    simp only [getKey, List.cons_append] at h ⊢
    split at h
    · exact absurd h (by simp)
    · simp_all [getKey]

theorem getKey_append_some {α : Type} {l l2 : List (String × α)} {k : String} {w : α}
    (h : getKey l k = some w) : getKey (l ++ l2) k = some w := by
  induction l with
  | nil => simp [getKey] at h
  | cons p rest ih =>
    obtain ⟨k0, v0⟩ := p
    simp only [getKey, List.cons_append] at h ⊢
    split at h <;> simp_all [getKey]

theorem getKey_setExisting_some {l : List (String × JVal)} {k : String} {w : JVal}
    (v : JVal) (h : getKey l k = some w) : getKey (setExisting l k v) k = some v := by
  induction l with
  | nil => simp [getKey] at h
  | cons p rest ih =>
    obtain ⟨k0, v0⟩ := p
    simp only [getKey, setExisting] at h ⊢
    split at h <;> rename_i hk <;> simp_all [getKey, hk]

theorem getKey_setExisting_ne {l : List (String × JVal)} {k k2 : String}
    (v : JVal) (h : k2 ≠ k) : getKey (setExisting l k v) k2 = getKey l k2 := by
  induction l with
  | nil => simp [setExisting]
  | cons p rest ih =>
    obtain ⟨k0, v0⟩ := p
    simp only [getKey, setExisting]
    by_cases hk : k0 == k <;> by_cases hk2 : k0 == k2 <;>
      simp_all [getKey]

@[simp] theorem getKey_objSet_self (l : List (String × JVal)) (k : String) (v : JVal) :
    getKey (objSet l k v) k = some v := by
  unfold objSet
  split
  · rename_i h
    obtain ⟨w, hw⟩ := Option.isSome_iff_exists.mp h
    exact getKey_setExisting_some v hw
  · rename_i h
    rw [getKey_append_none (Option.not_isSome_iff_eq_none.mp h)]
    simp [getKey]

@[simp] theorem getKey_objSet_ne {k2 k : String} (l : List (String × JVal)) (v : JVal)
    (h : k2 ≠ k) : getKey (objSet l k v) k2 = getKey l k2 := by
  unfold objSet
  split
  · exact getKey_setExisting_ne v h
  · cases hg : getKey l k2 with
    | some w => exact getKey_append_some hg
    | none =>
      rw [getKey_append_none hg]
      simp [getKey, Ne.symm h]

@[simp] theorem getKey_delKey_self (l : List (String × JVal)) (k : String) :
    getKey (delKey l k) k = none := by
  induction l with
  | nil => rfl
  | cons p rest ih =>
    obtain ⟨k0, v0⟩ := p
    simp only [delKey, List.filter_cons] at ih ⊢
    by_cases hk : k0 = k <;> simp_all [getKey, bne_iff_ne]

@[simp] theorem getKey_delKey_ne {k2 k : String} (l : List (String × JVal))
    (h : k2 ≠ k) : getKey (delKey l k) k2 = getKey l k2 := by
  induction l with
  | nil => rfl
  | cons p rest ih =>
    obtain ⟨k0, v0⟩ := p
    simp only [delKey, List.filter_cons] at ih ⊢
    by_cases hk : k0 = k <;> by_cases hk2 : k0 = k2 <;>
      simp_all [getKey, bne_iff_ne]

theorem getKey_setIfNullish_self (l : List (String × JVal)) (k : String)
    (v : Option JVal) : getKey (setIfNullish l k v) k = nullishApply (getKey l k) v := by
  cases v with
  | none => rfl
  | some jv =>
    rcases hg : getKey l k with _ | w
    · simp [setIfNullish, isNullishAt, hg, nullishApply, nullishOr]
    · cases w <;> simp [setIfNullish, isNullishAt, hg, nullishApply, nullishOr]

theorem getKey_setIfNullish_ne {k2 k : String} (l : List (String × JVal))
    (v : Option JVal) (h : k2 ≠ k) :
    getKey (setIfNullish l k v) k2 = getKey l k2 := by
  cases v with
  | none => rfl
  | some jv =>
    simp only [setIfNullish]
    split <;> simp [h]

theorem getKey_applyAlias_ne {k tK xK : String} (l : List (String × JVal))
    (oK : String) (h1 : k ≠ tK) (h2 : k ≠ xK) :
    getKey (applyAlias l oK tK xK) k = getKey l k := by
  unfold applyAlias
  split
  · rw [getKey_setIfNullish_ne _ _ h2, getKey_setIfNullish_ne _ _ h1]
  · rfl

theorem getKey_applyAlias_title {tK xK : String} (l : List (String × JVal))
    (oK : String) (hne : tK ≠ xK) :
    getKey (applyAlias l oK tK xK) tK = nullishApply (getKey l tK) (aliasRead l oK "title") := by
  unfold applyAlias aliasRead
  split
  · rw [getKey_setIfNullish_ne _ _ hne, getKey_setIfNullish_self]
  · simp [nullishApply]

theorem getKey_applyAlias_text {tK xK : String} (l : List (String × JVal))
    (oK : String) (hne : xK ≠ tK) :
    getKey (applyAlias l oK tK xK) xK = nullishApply (getKey l xK) (aliasRead l oK "text") := by
  unfold applyAlias aliasRead
  split
  · rw [getKey_setIfNullish_self, getKey_setIfNullish_ne _ _ hne]
  · simp [nullishApply]

/-! ### What `normalizeTexts` does to each text field -/

theorem aliasRead_applyAlias_ne {oK2 tK xK : String} (l : List (String × JVal))
    (oK f : String) (h1 : oK2 ≠ tK) (h2 : oK2 ≠ xK) :
    aliasRead (applyAlias l oK tK xK) oK2 f = aliasRead l oK2 f := by
  unfold aliasRead
  rw [getKey_applyAlias_ne _ _ h1 h2]

theorem nt_siteTitle (src : List (String × JVal)) :
    getKey (normalizeTexts src) "siteTitle"
      = some (nullishOr (getKey src "siteTitle") (.jstr DEFAULT_TEXTS.siteTitle)) := by
  simp only [normalizeTexts, applyDefaults]
  rw [getKey_delKey_ne _ (by decide), getKey_delKey_ne _ (by decide),
    getKey_setIfNullish_ne _ _ (by decide), getKey_setIfNullish_ne _ _ (by decide),
    getKey_setIfNullish_ne _ _ (by decide), getKey_setIfNullish_ne _ _ (by decide),
    getKey_setIfNullish_ne _ _ (by decide), getKey_setIfNullish_self,
    getKey_applyAlias_ne _ _ (by decide) (by decide),
    getKey_applyAlias_ne _ _ (by decide) (by decide)]
  rfl

theorem nt_siteSubtitle (src : List (String × JVal)) :
    getKey (normalizeTexts src) "siteSubtitle"
      = some (nullishOr (getKey src "siteSubtitle") (.jstr DEFAULT_TEXTS.siteSubtitle)) := by
  simp only [normalizeTexts, applyDefaults]
  rw [getKey_delKey_ne _ (by decide), getKey_delKey_ne _ (by decide),
    getKey_setIfNullish_ne _ _ (by decide), getKey_setIfNullish_ne _ _ (by decide),
    getKey_setIfNullish_ne _ _ (by decide), getKey_setIfNullish_ne _ _ (by decide),
    getKey_setIfNullish_self, getKey_setIfNullish_ne _ _ (by decide),
    getKey_applyAlias_ne _ _ (by decide) (by decide),
    getKey_applyAlias_ne _ _ (by decide) (by decide)]
  rfl

theorem nt_prefaceTitle (src : List (String × JVal)) :
    getKey (normalizeTexts src) "prefaceTitle"
      = some (nullishOr (nullishApply (getKey src "prefaceTitle")
          (aliasRead src "preface" "title")) (.jstr DEFAULT_TEXTS.prefaceTitle)) := by
  simp only [normalizeTexts, applyDefaults]
  rw [getKey_delKey_ne _ (by decide), getKey_delKey_ne _ (by decide),
    getKey_setIfNullish_ne _ _ (by decide), getKey_setIfNullish_ne _ _ (by decide),
    getKey_setIfNullish_ne _ _ (by decide), getKey_setIfNullish_self,
    getKey_setIfNullish_ne _ _ (by decide), getKey_setIfNullish_ne _ _ (by decide),
    getKey_applyAlias_ne _ _ (by decide) (by decide),
    getKey_applyAlias_title _ _ (by decide)]
  rfl

theorem nt_prefaceText (src : List (String × JVal)) :
    getKey (normalizeTexts src) "prefaceText"
      = some (nullishOr (nullishApply (getKey src "prefaceText")
          (aliasRead src "preface" "text")) (.jstr DEFAULT_TEXTS.prefaceText)) := by
  simp only [normalizeTexts, applyDefaults]
  rw [getKey_delKey_ne _ (by decide), getKey_delKey_ne _ (by decide),
    getKey_setIfNullish_ne _ _ (by decide), getKey_setIfNullish_ne _ _ (by decide),
    getKey_setIfNullish_self, getKey_setIfNullish_ne _ _ (by decide),
    getKey_setIfNullish_ne _ _ (by decide), getKey_setIfNullish_ne _ _ (by decide),
    getKey_applyAlias_ne _ _ (by decide) (by decide),
    getKey_applyAlias_text _ _ (by decide)]
  rfl

theorem nt_afterwordTitle (src : List (String × JVal)) :
    getKey (normalizeTexts src) "afterwordTitle"
      = some (nullishOr (nullishApply (getKey src "afterwordTitle")
          (aliasRead src "afterword" "title")) (.jstr DEFAULT_TEXTS.afterwordTitle)) := by
  simp only [normalizeTexts, applyDefaults]
  rw [getKey_delKey_ne _ (by decide), getKey_delKey_ne _ (by decide),
    getKey_setIfNullish_ne _ _ (by decide), getKey_setIfNullish_self,
    getKey_setIfNullish_ne _ _ (by decide), getKey_setIfNullish_ne _ _ (by decide),
    getKey_setIfNullish_ne _ _ (by decide), getKey_setIfNullish_ne _ _ (by decide),
    getKey_applyAlias_title _ _ (by decide),
    aliasRead_applyAlias_ne _ _ _ (by decide) (by decide),
    getKey_applyAlias_ne _ _ (by decide) (by decide)]
  rfl

theorem nt_afterwordText (src : List (String × JVal)) :
    getKey (normalizeTexts src) "afterwordText"
      = some (nullishOr (nullishApply (getKey src "afterwordText")
          (aliasRead src "afterword" "text")) (.jstr DEFAULT_TEXTS.afterwordText)) := by
  simp only [normalizeTexts, applyDefaults]
  rw [getKey_delKey_ne _ (by decide), getKey_delKey_ne _ (by decide),
    getKey_setIfNullish_self, getKey_setIfNullish_ne _ _ (by decide),
    getKey_setIfNullish_ne _ _ (by decide), getKey_setIfNullish_ne _ _ (by decide),
    getKey_setIfNullish_ne _ _ (by decide), getKey_setIfNullish_ne _ _ (by decide),
    getKey_applyAlias_text _ _ (by decide),
    aliasRead_applyAlias_ne _ _ _ (by decide) (by decide),
    getKey_applyAlias_ne _ _ (by decide) (by decide)]
  rfl

theorem nt_preface_gone (src : List (String × JVal)) :
    getKey (normalizeTexts src) "preface" = none := by
  simp only [normalizeTexts]
  rw [getKey_delKey_ne _ (by decide), getKey_delKey_self]

theorem nt_afterword_gone (src : List (String × JVal)) :
    getKey (normalizeTexts src) "afterword" = none := by
  simp only [normalizeTexts]
  rw [getKey_delKey_self]

/-! ### Small facts about `??=` read-back -/

theorem nullishOr_some_ne {v : JVal} (d : JVal) (h : v ≠ .jnull) :
    nullishOr (some v) d = v := by
  cases v <;> simp_all [nullishOr]

theorem nullishOr_of_nullish {cur : Option JVal} (d : JVal)
    (h : cur = none ∨ cur = some .jnull) : nullishOr cur d = d := by
  rcases h with h | h <;> simp [h, nullishOr]

theorem nullishApply_some_ne {v : JVal} (rhs : Option JVal) (h : v ≠ .jnull) :
    nullishApply (some v) rhs = some v := by
  cases rhs with
  | none => rfl
  | some jv => simp [nullishApply, nullishOr_some_ne _ h]

theorem nullish_fill {cur : Option JVal} (rhs : Option JVal) (d : JVal)
    (h : cur = none ∨ cur = some .jnull) :
    nullishOr (nullishApply cur rhs) d = (nonNullOpt rhs).getD d := by
  cases rhs with
  | none =>
    simp only [nullishApply, nonNullOpt, Option.getD]
    exact nullishOr_of_nullish d h
  | some jv =>
    rcases h with h | h <;> cases jv <;> simp [h, nullishApply, nullishOr, nonNullOpt]

theorem nullish_keep {v : JVal} (rhs : Option JVal) (d : JVal) (h : v ≠ .jnull) :
    nullishOr (nullishApply (some v) rhs) d = v := by
  rw [nullishApply_some_ne rhs h, nullishOr_some_ne d h]

theorem isNullishAt_iff {l : List (String × JVal)} {k : String} :
    isNullishAt l k = true ↔ (getKey l k = none ∨ getKey l k = some .jnull) := by
  unfold isNullishAt
  rcases h : getKey l k with _ | w
  · simp
  · cases w <;> simp

theorem nonNullOpt_some_ne {a : JVal} (h : a ≠ .jnull) : nonNullOpt (some a) = some a := by
  cases a <;> simp_all [nonNullOpt]

theorem nullish_fill_some {cur : Option JVal} (a d : JVal)
    (h : cur = none ∨ cur = some .jnull) (hn : a ≠ .jnull) :
    nullishOr (nullishApply cur (some a)) d = a := by
  rw [nullish_fill _ _ h, nonNullOpt_some_ne hn, Option.getD_some]

/-! ### Claim theorems about `normalizeTexts` (C4, C5) -/

/-- C4 counterexample: the claim says a text field present in the input is
preserved verbatim, but a field present with value `null` is replaced by
the documented default (`??=` treats `null` like an absent field); at the
input `\x7b "siteTitle": null \x7d` the output `siteTitle` is the default
string, not the input value `null`. -/
theorem c4_counterexample :
    getKey (normalizeTexts [("siteTitle", JVal.jnull)]) "siteTitle"
        = some (JVal.jstr DEFAULT_TEXTS.siteTitle)
      ∧ JVal.jstr DEFAULT_TEXTS.siteTitle ≠ JVal.jnull :=
  ⟨rfl, by nofun⟩

/-- C4 (amended): for each of the six text fields with defaults, the
output always contains the field; if the field is unset in the input
(absent or `null`), the output holds the value supplied by the nested
alias when one supplies a non-null value (for the four preface/afterword
fields), else the documented default verbatim; if the field is present
with a non-null value, the output preserves the input value. -/
theorem c4_text_fields (src : List (String × JVal)) :
    ((getKey (normalizeTexts src) "siteTitle").isSome = true
      ∧ (isNullishAt src "siteTitle" = true →
          getKey (normalizeTexts src) "siteTitle" = some (.jstr DEFAULT_TEXTS.siteTitle))
      ∧ (∀ v : JVal, getKey src "siteTitle" = some v → v ≠ .jnull →
          getKey (normalizeTexts src) "siteTitle" = some v))
  ∧ ((getKey (normalizeTexts src) "siteSubtitle").isSome = true
      ∧ (isNullishAt src "siteSubtitle" = true →
          getKey (normalizeTexts src) "siteSubtitle" = some (.jstr DEFAULT_TEXTS.siteSubtitle))
      ∧ (∀ v : JVal, getKey src "siteSubtitle" = some v → v ≠ .jnull →
          getKey (normalizeTexts src) "siteSubtitle" = some v))
  ∧ ((getKey (normalizeTexts src) "prefaceTitle").isSome = true
      ∧ (isNullishAt src "prefaceTitle" = true →
          getKey (normalizeTexts src) "prefaceTitle"
            = some ((nonNullOpt (aliasRead src "preface" "title")).getD
                (.jstr DEFAULT_TEXTS.prefaceTitle)))
      ∧ (∀ v : JVal, getKey src "prefaceTitle" = some v → v ≠ .jnull →
          getKey (normalizeTexts src) "prefaceTitle" = some v))
  ∧ ((getKey (normalizeTexts src) "prefaceText").isSome = true
      ∧ (isNullishAt src "prefaceText" = true →
          getKey (normalizeTexts src) "prefaceText"
            = some ((nonNullOpt (aliasRead src "preface" "text")).getD
                (.jstr DEFAULT_TEXTS.prefaceText)))
      ∧ (∀ v : JVal, getKey src "prefaceText" = some v → v ≠ .jnull →
          getKey (normalizeTexts src) "prefaceText" = some v))
  ∧ ((getKey (normalizeTexts src) "afterwordTitle").isSome = true
      ∧ (isNullishAt src "afterwordTitle" = true →
          getKey (normalizeTexts src) "afterwordTitle"
            = some ((nonNullOpt (aliasRead src "afterword" "title")).getD
                (.jstr DEFAULT_TEXTS.afterwordTitle)))
      ∧ (∀ v : JVal, getKey src "afterwordTitle" = some v → v ≠ .jnull →
          getKey (normalizeTexts src) "afterwordTitle" = some v))
  ∧ ((getKey (normalizeTexts src) "afterwordText").isSome = true
      ∧ (isNullishAt src "afterwordText" = true →
          getKey (normalizeTexts src) "afterwordText"
            = some ((nonNullOpt (aliasRead src "afterword" "text")).getD
                (.jstr DEFAULT_TEXTS.afterwordText)))
      ∧ (∀ v : JVal, getKey src "afterwordText" = some v → v ≠ .jnull →
          getKey (normalizeTexts src) "afterwordText" = some v)) := by
  refine ⟨⟨?_, ?_, ?_⟩, ⟨?_, ?_, ?_⟩, ⟨?_, ?_, ?_⟩, ⟨?_, ?_, ?_⟩, ⟨?_, ?_, ?_⟩, ⟨?_, ?_, ?_⟩⟩
  · simp [nt_siteTitle]
  · intro h
    rw [nt_siteTitle, nullishOr_of_nullish _ (isNullishAt_iff.mp h)]
  · intro v hv hn
    rw [nt_siteTitle, hv, nullishOr_some_ne _ hn]
  · simp [nt_siteSubtitle]
  · intro h
    rw [nt_siteSubtitle, nullishOr_of_nullish _ (isNullishAt_iff.mp h)]
  · intro v hv hn
    rw [nt_siteSubtitle, hv, nullishOr_some_ne _ hn]
  · simp [nt_prefaceTitle]
  · intro h
    rw [nt_prefaceTitle, nullish_fill _ _ (isNullishAt_iff.mp h)]
  · intro v hv hn
    rw [nt_prefaceTitle, hv, nullish_keep _ _ hn]
  · simp [nt_prefaceText]
  · intro h
    rw [nt_prefaceText, nullish_fill _ _ (isNullishAt_iff.mp h)]
  · intro v hv hn
    rw [nt_prefaceText, hv, nullish_keep _ _ hn]
  · simp [nt_afterwordTitle]
  · intro h
    rw [nt_afterwordTitle, nullish_fill _ _ (isNullishAt_iff.mp h)]
  · intro v hv hn
    rw [nt_afterwordTitle, hv, nullish_keep _ _ hn]
  · simp [nt_afterwordText]
  · intro h
    rw [nt_afterwordText, nullish_fill _ _ (isNullishAt_iff.mp h)]
  · intro v hv hn
    rw [nt_afterwordText, hv, nullish_keep _ _ hn]

/-- Witness for C4: at `srcTextW`, a present non-null `siteTitle` is
preserved, an absent `siteSubtitle` gets the default, a `null`
`prefaceTitle` takes the alias title, and an absent `afterwordText` takes
the alias text. -/
theorem c4_text_fields_witness :
    getKey (normalizeTexts srcTextW) "siteTitle" = some (.jstr "S")
  ∧ getKey (normalizeTexts srcTextW) "siteSubtitle"
      = some (.jstr DEFAULT_TEXTS.siteSubtitle)
  ∧ getKey (normalizeTexts srcTextW) "prefaceTitle" = some (.jstr "PT")
  ∧ getKey (normalizeTexts srcTextW) "afterwordText" = some (.jstr "AX") := by
  refine ⟨?_, ?_, ?_, ?_⟩
  · exact (c4_text_fields srcTextW).1.2.2 (.jstr "S") rfl (by nofun)
  · exact (c4_text_fields srcTextW).2.1.2.1 rfl
  · exact (c4_text_fields srcTextW).2.2.1.2.1 rfl
  · exact (c4_text_fields srcTextW).2.2.2.2.2.2.1 rfl

/-- C5: for every input document, the normalized output never contains
the keys `preface` or `afterword`; the flat fields take the alias
object's `title`/`text` only when the flat field was unset (absent or
`null`) in the input, and a flat field present with a non-null value
wins over the alias. -/
theorem c5_alias_flattening (src : List (String × JVal)) :
    getKey (normalizeTexts src) "preface" = none
  ∧ getKey (normalizeTexts src) "afterword" = none
  ∧ (∀ v : JVal, getKey src "prefaceTitle" = some v → v ≠ .jnull →
      getKey (normalizeTexts src) "prefaceTitle" = some v)
  ∧ (∀ a : JVal, isNullishAt src "prefaceTitle" = true →
      aliasRead src "preface" "title" = some a → a ≠ .jnull →
      getKey (normalizeTexts src) "prefaceTitle" = some a)
  ∧ (∀ v : JVal, getKey src "prefaceText" = some v → v ≠ .jnull →
      getKey (normalizeTexts src) "prefaceText" = some v)
  ∧ (∀ a : JVal, isNullishAt src "prefaceText" = true →
      aliasRead src "preface" "text" = some a → a ≠ .jnull →
      getKey (normalizeTexts src) "prefaceText" = some a)
  ∧ (∀ v : JVal, getKey src "afterwordTitle" = some v → v ≠ .jnull →
      getKey (normalizeTexts src) "afterwordTitle" = some v)
  ∧ (∀ a : JVal, isNullishAt src "afterwordTitle" = true →
      aliasRead src "afterword" "title" = some a → a ≠ .jnull →
      getKey (normalizeTexts src) "afterwordTitle" = some a)
  ∧ (∀ v : JVal, getKey src "afterwordText" = some v → v ≠ .jnull →
      getKey (normalizeTexts src) "afterwordText" = some v)
  ∧ (∀ a : JVal, isNullishAt src "afterwordText" = true →
      aliasRead src "afterword" "text" = some a → a ≠ .jnull →
      getKey (normalizeTexts src) "afterwordText" = some a) := by
  refine ⟨nt_preface_gone src, nt_afterword_gone src, ?_, ?_, ?_, ?_, ?_, ?_, ?_, ?_⟩
  · intro v hv hn
    rw [nt_prefaceTitle, hv, nullish_keep _ _ hn]
  · intro a h ha hn
    rw [nt_prefaceTitle, ha, nullish_fill_some _ _ (isNullishAt_iff.mp h) hn]
  · intro v hv hn
    rw [nt_prefaceText, hv, nullish_keep _ _ hn]
  · intro a h ha hn
    rw [nt_prefaceText, ha, nullish_fill_some _ _ (isNullishAt_iff.mp h) hn]
  · intro v hv hn
    rw [nt_afterwordTitle, hv, nullish_keep _ _ hn]
  · intro a h ha hn
    rw [nt_afterwordTitle, ha, nullish_fill_some _ _ (isNullishAt_iff.mp h) hn]
  · intro v hv hn
    rw [nt_afterwordText, hv, nullish_keep _ _ hn]
  · intro a h ha hn
    rw [nt_afterwordText, ha, nullish_fill_some _ _ (isNullishAt_iff.mp h) hn]

/-- Witness for C5 at `srcAliasW`: nested keys are gone, the present flat
`prefaceTitle` wins over its alias, the unset `prefaceText` takes the
alias text, and the `null` `afterwordTitle` takes the alias title. -/
theorem c5_alias_flattening_witness :
    getKey (normalizeTexts srcAliasW) "preface" = none
  ∧ getKey (normalizeTexts srcAliasW) "afterword" = none
  ∧ getKey (normalizeTexts srcAliasW) "prefaceTitle" = some (.jstr "Keep")
  ∧ getKey (normalizeTexts srcAliasW) "prefaceText" = some (.jstr "TxtA")
  ∧ getKey (normalizeTexts srcAliasW) "afterwordTitle" = some (.jstr "AwT") := by
  refine ⟨(c5_alias_flattening srcAliasW).1, (c5_alias_flattening srcAliasW).2.1, ?_, ?_, ?_⟩
  · exact (c5_alias_flattening srcAliasW).2.2.1 (.jstr "Keep") rfl (by nofun)
  · exact (c5_alias_flattening srcAliasW).2.2.2.2.2.1 (.jstr "TxtA") rfl rfl (by nofun)
  · exact (c5_alias_flattening srcAliasW).2.2.2.2.2.2.2.1 (.jstr "AwT") rfl rfl (by nofun)

/-! ### Branch lemmas for `resolveNominee` -/

theorem resolveNominee_obj (ctx : Ctx) (st : RunState) (fields : List (String × JVal))
    (hne : fields.isEmpty = false) :
    resolveNominee ctx st (.jobj fields) =
      match typeOfFields fields with
      | .error e => (.error e, st)
      | .ok ty =>
        match getKey fields "id" with
        | some idv =>
          if (ty == "" || ty == "discord" || ty == "member") && jsTruthy idv then
            match fetchMember ctx st idv with
            | (.ok m, st1) => (.ok (some (.jobj (buildDiscordObj fields m))), st1)
            | (.error e, st1) => (.error e, st1)
          else (resolveTail fields ty, st)
        | none => (resolveTail fields ty, st) := by
  simp [resolveNominee, jsTruthy, looksLikeImagePath, objectFields, imageExts, hne]

theorem resolveTail_custom (fields : List (String × JVal)) :
    resolveTail fields "custom" = customBranch fields := by
  simp [resolveTail]

theorem resolveTail_video (fields : List (String × JVal)) :
    resolveTail fields "video" = videoBranch fields := by
  simp [resolveTail]

theorem resolveTail_unknown (fields : List (String × JVal)) (ty : String)
    (h1 : (ty == "custom") = false) (h2 : (ty == "video") = false) :
    resolveTail fields ty
      = .ok (some (.jobj (objSet fields "type"
          (.jstr (if ty == "" then "unknown" else ty))))) := by
  simp [resolveTail, h1, h2]

theorem isEmpty_false_of_getKey {fields : List (String × JVal)} {k : String} {v : JVal}
    (h : getKey fields k = some v) : fields.isEmpty = false := by
  cases fields with
  | nil => simp [getKey] at h
  | cons p rest => rfl

theorem typeOfFields_str {fields : List (String × JVal)} {s : String}
    (hty : getKey fields "type" = some (.jstr s)) (hs : s ≠ "") :
    typeOfFields fields = .ok (jsToLower s) := by
  simp [typeOfFields, hty, jsTruthy, bne_iff_ne, hs]

theorem toLower_ne_empty {s w : String} (h : jsToLower s = w) (hw : w ≠ "") : s ≠ "" := by
  intro he
  subst he
  have hw2 : w = "" := by
    rw [← h]
    rfl
  exact hw hw2

theorem resolveNominee_nondiscord (ctx : Ctx) (st : RunState)
    (fields : List (String × JVal)) (ty : String) (hne : fields.isEmpty = false)
    (hty : typeOfFields fields = .ok ty)
    (h1 : (ty == "") = false) (h2 : (ty == "discord") = false)
    (h3 : (ty == "member") = false) :
    resolveNominee ctx st (.jobj fields) = (resolveTail fields ty, st) := by
  rw [resolveNominee_obj ctx st fields hne, hty]
  cases hid : getKey fields "id" with
  | none => rfl
  | some idv => simp [h1, h2, h3]

theorem resolveNominee_no_truthy_id (ctx : Ctx) (st : RunState)
    (fields : List (String × JVal)) (ty : String) (hne : fields.isEmpty = false)
    (hty : typeOfFields fields = .ok ty)
    (hid : getKey fields "id" = none ∨
      ∃ idv, getKey fields "id" = some idv ∧ jsTruthy idv = false) :
    resolveNominee ctx st (.jobj fields) = (resolveTail fields ty, st) := by
  rw [resolveNominee_obj ctx st fields hne, hty]
  rcases hid with h | ⟨idv, h, hf⟩
  · simp [h]
  · simp [h, hf]

theorem resolveAll_cons_none {ctx : Ctx} {st : RunState} {n : JVal} {rest : List JVal}
    (h : resolveNominee ctx st n = (.ok none, st)) :
    resolveAll ctx st (n :: rest) = resolveAll ctx st rest := by
  simp only [resolveAll, h]
  rcases hr : resolveAll ctx st rest with ⟨r, st2⟩
  cases r <;> simp

/-! ### Claim theorems about `resolveNominee` (C1, C6, C8, C10) -/

/-- C8: a null or empty-string nominee, and an object nominee with no
keys, resolve to nothing (no error), and such entries are dropped from
the output nominee list of their nomination. -/
theorem c8_empty_nominee_dropped (ctx : Ctx) (st : RunState) (rest : List JVal) :
    resolveNominee ctx st .jnull = (.ok none, st)
  ∧ resolveNominee ctx st (.jstr "") = (.ok none, st)
  ∧ resolveNominee ctx st (.jobj []) = (.ok none, st)
  ∧ resolveAll ctx st (JVal.jnull :: rest) = resolveAll ctx st rest
  ∧ resolveAll ctx st (JVal.jstr "" :: rest) = resolveAll ctx st rest
  ∧ resolveAll ctx st (JVal.jobj [] :: rest) = resolveAll ctx st rest :=
  ⟨rfl, rfl, rfl, resolveAll_cons_none rfl, resolveAll_cons_none rfl,
    resolveAll_cons_none rfl⟩

/-- C1: a `custom` nominee with none of the image-source fields
(`imageUrl`/`path`/`src`/`url`) resolves to nothing when it also has no
title (`title`/`name`/`text` all absent) — silently dropped, not an
error — and resolves to the title-only entry
`\x7b type: "custom", title: String(title).trim() \x7d` when a non-empty
string `title` is present. -/
theorem c1_custom_title_only (ctx : Ctx) (st : RunState)
    (fields : List (String × JVal)) (s : String)
    (hty : getKey fields "type" = some (.jstr s))
    (hcustom : jsToLower s = "custom")
    (himg : getKey fields "imageUrl" = none) (hpath : getKey fields "path" = none)
    (hsrc : getKey fields "src" = none) (hurl : getKey fields "url" = none) :
    (getKey fields "title" = none → getKey fields "name" = none →
      getKey fields "text" = none →
      resolveNominee ctx st (.jobj fields) = (.ok none, st)
      ∧ ∀ rest : List JVal,
          resolveAll ctx st (.jobj fields :: rest) = resolveAll ctx st rest)
  ∧ (∀ t : String, getKey fields "title" = some (.jstr t) → t ≠ "" →
      resolveNominee ctx st (.jobj fields)
        = (.ok (some (.jobj [("type", .jstr "custom"), ("title", .jstr (jsTrim t))])), st)) := by
  have hs : s ≠ "" := toLower_ne_empty hcustom (by decide)
  have hne : fields.isEmpty = false := isEmpty_false_of_getKey hty
  have hty2 : typeOfFields fields = .ok "custom" := by
    rw [typeOfFields_str hty hs, hcustom]
  have hmain : resolveNominee ctx st (.jobj fields) = (customBranch fields, st) := by
    rw [resolveNominee_nondiscord ctx st fields "custom" hne hty2 (by decide) (by decide)
      (by decide), resolveTail_custom]
  constructor
  · intro h1 h2 h3
    have hnone : resolveNominee ctx st (.jobj fields) = (.ok none, st) := by
      rw [hmain]
      simp [customBranch, nnChain, getNonNull, himg, hpath, hsrc, hurl, h1, h2, h3, truthyOpt]
    exact ⟨hnone, fun rest => resolveAll_cons_none hnone⟩
  · intro t ht htne
    rw [hmain]
    simp only [customBranch, nnChain, getNonNull, himg, hpath, hsrc, hurl, ht, truthyOpt]
    rw [if_neg (by simp)]
    simp [jsTruthy, bne_iff_ne, htne, titleOnlyCustom, jsToString]

/-- Witness for C1: a bare `\x7b type: "custom" \x7d` nominee is dropped,
and `\x7b type: "custom", title: "GOTY" \x7d` becomes the title-only
entry. -/
theorem c1_custom_title_only_witness :
    resolveNominee ctx0 initialState (.jobj [("type", .jstr "custom")])
      = (.ok none, initialState)
  ∧ resolveNominee ctx0 initialState
        (.jobj [("type", .jstr "custom"), ("title", .jstr "GOTY")])
      = (.ok (some (.jobj [("type", .jstr "custom"), ("title", .jstr "GOTY")])), initialState) := by
  constructor
  · exact ((c1_custom_title_only ctx0 initialState [("type", .jstr "custom")] "custom"
      rfl rfl rfl rfl rfl rfl).1 rfl rfl rfl).1
  · exact (c1_custom_title_only ctx0 initialState
      [("type", .jstr "custom"), ("title", .jstr "GOTY")] "custom"
      rfl rfl rfl rfl rfl rfl).2 "GOTY" rfl (by decide)

/-- C6 counterexample: the claim's title formula omits the final trim the
code performs; on the image-path string `"-game.png"` the code produces
the title `"game"`, while the claimed formula (last segment, extension
stripped, separators to spaces) yields `" game"`. -/
theorem c6_counterexample :
    (resolveNominee ctx0 initialState (.jstr "-game.png")).1
        = .ok (some (.jobj [("type", .jstr "custom"), ("imageUrl", .jstr "-game.png"),
            ("title", .jstr "game")]))
      ∧ specTitleC6 "-game.png" = " game"
      ∧ ("game" : String) ≠ " game" :=
  ⟨rfl, rfl, by decide⟩

/-- C6 (amended): a string nominee whose trimmed value ends in an image
extension resolves to a `custom` entry whose `imageUrl` is the trimmed
input and whose `title` is the last path segment with the extension
stripped and `_`/`-` runs replaced by spaces, **additionally trimmed**;
when that title is empty the `title` field is omitted. -/
theorem c6_image_shorthand (ctx : Ctx) (st : RunState) (s : String)
    (h : looksLikeImagePath (.jstr s) = true) :
    resolveNominee ctx st (.jstr s)
      = (.ok (some (.jobj (("type", .jstr "custom") :: ("imageUrl", .jstr (jsTrim s)) ::
          (if jsTrim (specTitleC6 s) == "" then []
           else [("title", .jstr (jsTrim (specTitleC6 s)))])))), st) := by
  have hs : s ≠ "" := by
    intro he
    subst he
    exact absurd h (by decide)
  have htr : jsTruthy (.jstr s) = true := by simp [jsTruthy, bne_iff_ne, hs]
  simp only [resolveNominee, htr]
  rw [if_neg (by simp), if_pos h]
  simp [imageShorthand, deriveTitle, specTitleC6, jsToString]

/-- Witness for C6 at `" my_game.PNG "`: trimmed image URL and derived
title. -/
theorem c6_image_shorthand_witness :
    looksLikeImagePath (.jstr " my_game.PNG ") = true
  ∧ resolveNominee ctx0 initialState (.jstr " my_game.PNG ")
      = (.ok (some (.jobj [("type", .jstr "custom"), ("imageUrl", .jstr "my_game.PNG"),
          ("title", .jstr "my game")])), initialState) :=
  ⟨by decide, c6_image_shorthand ctx0 initialState " my_game.PNG " (by decide)⟩

/-- C10 counterexample: the claim says every `discord`/`member`/untyped
object without a truthy `id` is passed through with `type` set, but the
empty object (type absent, no id) is dropped instead of being passed
through as `\x7b type: "unknown" \x7d`. -/
theorem c10_counterexample :
    resolveNominee ctx0 initialState (.jobj []) = (.ok none, initialState)
  ∧ (Except.ok none : Except String (Option JVal))
      ≠ .ok (some (.jobj (objSet [] "type" (.jstr "unknown")))) :=
  ⟨rfl, by simp⟩

/-- C10 (amended): an object nominee with at least one key whose `type`
is `discord`, `member` (in any letter case) or absent, but which lacks a
truthy `id`, performs no identity lookup and raises no error: it falls
through to the unknown branch and is passed through with its other
fields unchanged and `type` replaced by its lowercased value (or
`"unknown"` when `type` was absent); the empty object is instead
dropped. -/
theorem c10_mistyped_discord_passthrough (ctx : Ctx) (st : RunState)
    (fields : List (String × JVal)) :
    (getKey fields "type" = none → fields.isEmpty = false →
      (getKey fields "id" = none ∨
        (∃ idv, getKey fields "id" = some idv ∧ jsTruthy idv = false)) →
      resolveNominee ctx st (.jobj fields)
        = (.ok (some (.jobj (objSet fields "type" (.jstr "unknown")))), st))
  ∧ (∀ s : String, getKey fields "type" = some (.jstr s) →
      (jsToLower s = "discord" ∨ jsToLower s = "member") →
      (getKey fields "id" = none ∨
        (∃ idv, getKey fields "id" = some idv ∧ jsTruthy idv = false)) →
      resolveNominee ctx st (.jobj fields)
        = (.ok (some (.jobj (objSet fields "type" (.jstr (jsToLower s))))), st)) := by
  constructor
  · intro hty hne hid
    have hty2 : typeOfFields fields = .ok "" := by simp [typeOfFields, hty]
    rw [resolveNominee_no_truthy_id ctx st fields "" hne hty2 hid,
      resolveTail_unknown fields "" (by decide) (by decide)]
    rfl
  · intro s hty hdm hid
    have hne : fields.isEmpty = false := isEmpty_false_of_getKey hty
    have hs : s ≠ "" := by
      rcases hdm with h | h
      · exact toLower_ne_empty h (by decide)
      · exact toLower_ne_empty h (by decide)
    have hty2 : typeOfFields fields = .ok (jsToLower s) := typeOfFields_str hty hs
    rw [resolveNominee_no_truthy_id ctx st fields (jsToLower s) hne hty2 hid]
    rcases hdm with h | h <;>
      rw [h, resolveTail_unknown fields _ (by decide) (by decide)] <;> rfl

/-- Witness for C10: `\x7b name: "x" \x7d` (type absent, no id) passes
through with `type: "unknown"`, and `\x7b type: "Discord", id: "" \x7d`
(falsy id) passes through with `type: "discord"` and the empty `id`
untouched. -/
theorem c10_mistyped_discord_passthrough_witness :
    resolveNominee ctx0 initialState (.jobj [("name", .jstr "x")])
      = (.ok (some (.jobj [("name", .jstr "x"), ("type", .jstr "unknown")])), initialState)
  ∧ resolveNominee ctx0 initialState (.jobj [("type", .jstr "Discord"), ("id", .jstr "")])
      = (.ok (some (.jobj [("type", .jstr "discord"), ("id", .jstr "")])), initialState) := by
  constructor
  · exact (c10_mistyped_discord_passthrough ctx0 initialState [("name", .jstr "x")]).1
      rfl rfl (Or.inl rfl)
  · exact (c10_mistyped_discord_passthrough ctx0 initialState
      [("type", .jstr "Discord"), ("id", .jstr "")]).2 "Discord" rfl (Or.inl rfl)
      (Or.inr ⟨.jstr "", rfl, rfl⟩)

/-! ### Step lemmas for the `api` retry loop -/

theorem apiLoop_429_retry (path : String) (resp : ℕ → Resp) (jit : ℕ → ℕ)
    (R attempt fuel : ℕ) (h : (resp attempt).status = 429) (hlt : attempt < R) :
    apiLoop path resp jit R attempt (fuel + 1)
      = ⟨(apiLoop path resp jit R (attempt + 1) fuel).result,
         (Int.toNat (ceilSecToMs (retryAfterSecOf (resp attempt))) + jitterMs jit attempt)
           :: (apiLoop path resp jit R (attempt + 1) fuel).sleeps,
         (apiLoop path resp jit R (attempt + 1) fuel).fetches + 1⟩ := by
  have hnle : ¬ R ≤ attempt := Nat.not_le.mpr hlt
  simp [apiLoop, h, hnle]

theorem apiLoop_429_exhaust (path : String) (resp : ℕ → Resp) (jit : ℕ → ℕ)
    (R attempt fuel : ℕ) (h : (resp attempt).status = 429) (hge : R ≤ attempt) :
    apiLoop path resp jit R attempt (fuel + 1)
      = ⟨.error ("Discord API 429 after " ++ toString (R + 1) ++ " attempts on " ++ path),
         [], 1⟩ := by
  simp [apiLoop, h, hge]

theorem apiLoop_success (path : String) (resp : ℕ → Resp) (jit : ℕ → ℕ)
    (R attempt fuel : ℕ) (h1 : 200 ≤ (resp attempt).status)
    (h2 : (resp attempt).status < 300) :
    apiLoop path resp jit R attempt (fuel + 1) = ⟨(resp attempt).json, [], 1⟩ := by
  have hne : ¬ (resp attempt).status = 429 := by omega
  have hn5 : ¬ (500 ≤ (resp attempt).status ∧ (resp attempt).status ≤ 599) := by omega
  simp [apiLoop, beq_iff_eq, hne, hn5, h1, h2]

theorem apiLoop_fail_now (path : String) (resp : ℕ → Resp) (jit : ℕ → ℕ)
    (R attempt fuel : ℕ)
    (hok : ¬ (200 ≤ (resp attempt).status ∧ (resp attempt).status < 300))
    (h429 : (resp attempt).status ≠ 429)
    (h5 : ¬ (500 ≤ (resp attempt).status ∧ (resp attempt).status ≤ 599)) :
    apiLoop path resp jit R attempt (fuel + 1)
      = ⟨.error ("Discord API " ++ toString (resp attempt).status ++ ": "
          ++ (resp attempt).text), [], 1⟩ := by
  simp [apiLoop, beq_iff_eq, h429, h5, hok]

theorem apiLoop_all429 (path : String) (resp : ℕ → Resp) (jit : ℕ → ℕ) (R : ℕ)
    (h : ∀ i, (resp i).status = 429) :
    ∀ fuel attempt, attempt + fuel = R + 1 → 1 ≤ fuel →
      (apiLoop path resp jit R attempt fuel).result
          = .error ("Discord API 429 after " ++ toString (R + 1) ++ " attempts on " ++ path)
        ∧ (apiLoop path resp jit R attempt fuel).fetches = fuel
        ∧ (apiLoop path resp jit R attempt fuel).sleeps.length = fuel - 1 := by
  intro fuel
  induction fuel with
  | zero => intro attempt hsum hf; omega
  | succ f ih =>
    intro attempt hsum hf
    by_cases hend : R ≤ attempt
    · have hf0 : f = 0 := by omega
      subst hf0
      rw [apiLoop_429_exhaust path resp jit R attempt 0 (h attempt) hend]
      exact ⟨rfl, rfl, rfl⟩
    · have hlt : attempt < R := Nat.lt_of_not_le hend
      have hrec := ih (attempt + 1) (by omega) (by omega)
      rw [apiLoop_429_retry path resp jit R attempt f (h attempt) hlt]
      refine ⟨hrec.1, ?_, ?_⟩
      · simp only [hrec.2.1]
      · simp only [List.length_cons, hrec.2.2]
        omega

/-- C7: the rate-limit/backoff behaviour of the HTTP client. (a) When
every response is a 429, the call fails with the terminal error naming
the endpoint path and the attempt count, after `retries + 1` requests
with one sleep between consecutive attempts. (b) A 429 followed by a
success sleeps exactly the parsed server wait (ceiling of
`retry_after * 1000` ms) plus the jitter, then retries and returns the
parsed body. (c) The parsed wait defaults to 1 second when the body
failed to parse or carries no numeric `retry_after`. (d) A non-success
status other than 429 and 5xx fails immediately with status and body,
after a single request and no sleep. -/
theorem c7_api_rate_limit (path : String) (resp : ℕ → Resp) (jit : ℕ → ℕ) :
    ((∀ i, (resp i).status = 429) →
      (apiRun path resp jit API_RETRIES).result
          = .error ("Discord API 429 after " ++ toString (API_RETRIES + 1)
              ++ " attempts on " ++ path)
        ∧ (apiRun path resp jit API_RETRIES).fetches = API_RETRIES + 1
        ∧ (apiRun path resp jit API_RETRIES).sleeps.length = API_RETRIES)
  ∧ ((resp 0).status = 429 → 200 ≤ (resp 1).status → (resp 1).status < 300 →
      apiRun path resp jit API_RETRIES
        = ⟨(resp 1).json,
           [Int.toNat (ceilSecToMs (retryAfterSecOf (resp 0))) + jitterMs jit 0], 2⟩)
  ∧ (∀ e, (resp 0).json = .error e → retryAfterSecOf (resp 0) = 1)
  ∧ (∀ j, (resp 0).json = .ok j → jget j "retry_after" = none → retryAfterSecOf (resp 0) = 1)
  ∧ (¬ (200 ≤ (resp 0).status ∧ (resp 0).status < 300) → (resp 0).status ≠ 429 →
      ¬ (500 ≤ (resp 0).status ∧ (resp 0).status ≤ 599) →
      apiRun path resp jit API_RETRIES
        = ⟨.error ("Discord API " ++ toString (resp 0).status ++ ": " ++ (resp 0).text),
           [], 1⟩) := by
  refine ⟨?_, ?_, ?_, ?_, ?_⟩
  · intro h
    exact apiLoop_all429 path resp jit API_RETRIES h (API_RETRIES + 1) 0 rfl (by omega)
  · intro h0 h1 h2
    show apiLoop path resp jit API_RETRIES 0 (API_RETRIES + 1) = _
    rw [apiLoop_429_retry path resp jit API_RETRIES 0 API_RETRIES h0 (by decide),
      show API_RETRIES = 9 + 1 from rfl,
      apiLoop_success path resp jit (9 + 1) 1 9 h1 h2]
  · intro e he
    simp [retryAfterSecOf, he]
  · intro j hj hra
    simp [retryAfterSecOf, hj, hra]
  · intro hok h429 h5
    show apiLoop path resp jit API_RETRIES 0 (API_RETRIES + 1) = _
    rw [apiLoop_fail_now path resp jit API_RETRIES 0 API_RETRIES hok h429 h5]

/-- Witness for C7: a constant-429 stream exhausts the 11 attempts; a
parsed `retry_after` of `1/2` seconds followed by a success sleeps
`550` ms (with zero jitter draw the jitter is 50 ms) and returns the
body; an unparseable body defaults to 1 second; a 404 fails after one
request with no sleep. -/
theorem c7_api_rate_limit_witness :
    (apiRun "/p" (fun _ => ⟨429, .error "x", ""⟩) (fun _ => 7) API_RETRIES).result
        = .error ("Discord API 429 after " ++ toString (API_RETRIES + 1)
            ++ " attempts on " ++ "/p")
  ∧ apiRun "/p"
        (fun i => if i == 0 then ⟨429, .ok (.jobj [("retry_after", .jnum ⟨1, 2, by decide, by decide⟩)]), ""⟩
          else ⟨200, .ok (.jstr "done"), ""⟩) (fun _ => 0) API_RETRIES
      = ⟨.ok (.jstr "done"), [550], 2⟩
  ∧ retryAfterSecOf ⟨429, .error "boom", ""⟩ = 1
  ∧ apiRun "/p" (fun _ => ⟨404, .ok .jnull, "nf"⟩) (fun _ => 0) API_RETRIES
      = ⟨.error ("Discord API " ++ toString 404 ++ ": " ++ "nf"), [], 1⟩ := by
  refine ⟨?_, ?_, ?_, ?_⟩
  · exact ((c7_api_rate_limit "/p" (fun _ => ⟨429, .error "x", ""⟩) (fun _ => 7)).1
      (fun i => rfl)).1
  · have h := (c7_api_rate_limit "/p"
        (fun i => if i == 0 then ⟨429, .ok (.jobj [("retry_after", .jnum ⟨1, 2, by decide, by decide⟩)]), ""⟩
          else ⟨200, .ok (.jstr "done"), ""⟩) (fun _ => 0)).2.1 rfl (by decide) (by decide)
    rw [h]
    rfl
  · exact (c7_api_rate_limit "/p" (fun _ => ⟨429, .error "boom", ""⟩) (fun _ => 0)).2.2.1
      "boom" rfl
  · exact (c7_api_rate_limit "/p" (fun _ => ⟨404, .ok .jnull, "nf"⟩) (fun _ => 0)).2.2.2.2
      (by decide) (by decide) (by decide)

/-! ### Run-level abort lemmas (C2) -/

theorem getKey_normalizeTexts_nominations (src : List (String × JVal)) :
    getKey (normalizeTexts src) "nominations" = getKey src "nominations" := by
  simp only [normalizeTexts, applyDefaults]
  rw [getKey_delKey_ne _ (by decide), getKey_delKey_ne _ (by decide),
    getKey_setIfNullish_ne _ _ (by decide), getKey_setIfNullish_ne _ _ (by decide),
    getKey_setIfNullish_ne _ _ (by decide), getKey_setIfNullish_ne _ _ (by decide),
    getKey_setIfNullish_ne _ _ (by decide), getKey_setIfNullish_ne _ _ (by decide),
    getKey_applyAlias_ne _ _ (by decide) (by decide),
    getKey_applyAlias_ne _ _ (by decide) (by decide)]

theorem resolveNominee_video_missing (ctx : Ctx) (st : RunState)
    (fields : List (String × JVal))
    (hty : getKey fields "type" = some (.jstr "video"))
    (hvid : getKey fields "videoUrl" = none) :
    resolveNominee ctx st (.jobj fields)
      = (.error "Video nominee is missing \"videoUrl\"", st) := by
  have hne := isEmpty_false_of_getKey hty
  have hty2 : typeOfFields fields = .ok "video" := typeOfFields_str hty (by decide)
  rw [resolveNominee_nondiscord ctx st fields "video" hne hty2 (by decide) (by decide)
    (by decide), resolveTail_video]
  simp [videoBranch, hvid]

theorem resolveAll_contains_error {ctx : Ctx} {bad : JVal} {e : String}
    (hbad : ∀ st : RunState, resolveNominee ctx st bad = (.error e, st)) :
    ∀ (ns : List JVal) (st : RunState), bad ∈ ns →
      exOk (resolveAll ctx st ns).1 = false := by
  intro ns
  induction ns with
  | nil => intro st h; simp at h
  | cons m rest ih =>
    intro st hmem
    rcases List.mem_cons.mp hmem with he | hm
    · subst he
      simp [resolveAll, hbad st, exOk]
    · rcases hr : resolveNominee ctx st m with ⟨r, st1⟩
      cases r with
      | error err => simp [resolveAll, hr, exOk]
      | ok o =>
        have hrest := ih st1 hm
        simp only [resolveAll, hr]
        rcases hra : resolveAll ctx st1 rest with ⟨r2, st2⟩
        cases r2 with
        | error e2 => simp [exOk]
        | ok out =>
          rw [hra] at hrest
          simp [exOk] at hrest

theorem processNomination_abort {ctx : Ctx} {bad : JVal} {e : String}
    {nf : List (String × JVal)} {ns : List JVal}
    (hbad : ∀ st : RunState, resolveNominee ctx st bad = (.error e, st))
    (hnf : getKey nf "nominees" = some (.jarr ns)) (hmem : bad ∈ ns) :
    ∀ st : RunState, exOk (processNomination ctx st (.jobj nf)).1 = false := by
  intro st
  have h := resolveAll_contains_error hbad ns st hmem
  rcases hra : resolveAll ctx st ns with ⟨r, st1⟩
  rw [hra] at h
  cases r with
  | error e2 =>
    simp [processNomination, jget, objectFields, hnf, orEmptyList, jsTruthy, jsIterate,
      hra, exOk]
  | ok out => simp [exOk] at h

theorem buildNominations_abort {ctx : Ctx} {nom : JVal}
    (habort : ∀ st : RunState, exOk (processNomination ctx st nom).1 = false) :
    ∀ (noms : List JVal) (st : RunState), nom ∈ noms →
      exOk (buildNominations ctx st noms).1 = false := by
  intro noms
  induction noms with
  | nil => intro st h; simp at h
  | cons m rest ih =>
    intro st hmem
    rcases hp : processNomination ctx st m with ⟨r, st1⟩
    cases r with
    | error e2 => simp [buildNominations, hp, exOk]
    | ok m1 =>
      rcases List.mem_cons.mp hmem with he | hm
      · exfalso
        have h := habort st
        rw [he, hp] at h
        simp [exOk] at h
      · have hrest := ih st1 hm
        rcases hb : buildNominations ctx st1 rest with ⟨r2, st2⟩
        rw [hb] at hrest
        cases r2 with
        | error e2 => simp [buildNominations, hp, hb, exOk]
        | ok rest1 => simp [exOk] at hrest

theorem resolveAll_ok_each {ctx : Ctx} :
    ∀ (ns : List JVal) (st : RunState) (out : List JVal) (st2 : RunState),
      resolveAll ctx st ns = (.ok out, st2) →
      ∀ n ∈ ns, ∃ (st1 : RunState) (r : Option JVal) (st3 : RunState),
        resolveNominee ctx st1 n = (.ok r, st3) := by
  intro ns
  induction ns with
  | nil => intro st out st2 h n hn; simp at hn
  | cons m rest ih =>
    intro st out st2 h n hn
    rcases hr : resolveNominee ctx st m with ⟨r, st1⟩
    cases r with
    | error err => simp [resolveAll, hr] at h
    | ok o =>
      simp only [resolveAll, hr] at h
      rcases hra : resolveAll ctx st1 rest with ⟨r2, st3⟩
      cases r2 with
      | error e2 => rw [hra] at h; simp at h
      | ok out2 =>
        rcases List.mem_cons.mp hn with he | hm
        · subst he
          exact ⟨st, o, st1, hr⟩
        · exact ih st1 out2 st3 hra n hm

theorem buildNominations_ok_each {ctx : Ctx} :
    ∀ (noms : List JVal) (st : RunState) (outs : List JVal) (st2 : RunState),
      buildNominations ctx st noms = (.ok outs, st2) →
      ∀ nom ∈ noms, ∃ (st1 : RunState) (nom1 : JVal) (st3 : RunState),
        processNomination ctx st1 nom = (.ok nom1, st3) := by
  intro noms
  induction noms with
  | nil => intro st outs st2 h nom hn; simp at hn
  | cons m rest ih =>
    intro st outs st2 h nom hn
    rcases hp : processNomination ctx st m with ⟨r, st1⟩
    cases r with
    | error err => simp [buildNominations, hp] at h
    | ok m1 =>
      simp only [buildNominations, hp] at h
      rcases hb : buildNominations ctx st1 rest with ⟨r2, st3⟩
      cases r2 with
      | error e2 => rw [hb] at h; simp at h
      | ok rest1 =>
        rcases List.mem_cons.mp hn with he | hm
        · subst he
          exact ⟨st, m1, st1, hp⟩
        · exact ih st1 rest1 st3 hb nom hm

theorem processNomination_ok_each {ctx : Ctx} {nf : List (String × JVal)}
    {ns : List JVal} {st1 : RunState} {nom1 : JVal} {st3 : RunState}
    (hnf : getKey nf "nominees" = some (.jarr ns))
    (h : processNomination ctx st1 (.jobj nf) = (.ok nom1, st3)) :
    ∀ n ∈ ns, ∃ (sta : RunState) (r : Option JVal) (stb : RunState),
      resolveNominee ctx sta n = (.ok r, stb) := by
  rcases hra : resolveAll ctx st1 ns with ⟨r, stx⟩
  cases r with
  | ok out => exact resolveAll_ok_each ns st1 out stx hra
  | error e2 =>
    exfalso
    simp [processNomination, jget, objectFields, hnf, orEmptyList, jsTruthy,
      jsIterate, hra] at h

set_option maxHeartbeats 1000000 in
theorem buildConfig_eq (ctx : Ctx) (src : List (String × JVal)) (noms : List JVal)
    (hnoms : getKey src "nominations" = some (.jarr noms)) :
    buildConfig ctx src
      = (match buildNominations ctx initialState noms with
         | (.error e, st) => (.error e, st)
         | (.ok noms1, st) =>
             (.ok (objSet (normalizeTexts src) "nominations" (.jarr noms1)), st)) := by
  have hlook : getKey (normalizeTexts src) "nominations" = some (.jarr noms) := by
    rw [getKey_normalizeTexts_nominations, hnoms]
  simp only [buildConfig, hlook]
  simp [orEmptyList, jsTruthy, jsIterate]

/-- C2: a `video` nominee without a `videoUrl` field fails resolution
with the error `Video nominee is missing "videoUrl"` (naming the missing
field) and leaves the state untouched; when such a nominee occurs in any
nomination of the document the whole run produces an error instead of an
output document (the top-level handler then exits nonzero without
writing); and whenever the run does produce an output document, every
nominee of every nomination resolved successfully. -/
theorem c2_video_missing_url (ctx : Ctx) (src : List (String × JVal)) :
    (∀ (st : RunState) (fields : List (String × JVal)),
      getKey fields "type" = some (.jstr "video") → getKey fields "videoUrl" = none →
      resolveNominee ctx st (.jobj fields)
        = (.error "Video nominee is missing \"videoUrl\"", st))
  ∧ (∀ (noms ns : List JVal) (nf fields : List (String × JVal)),
      getKey src "nominations" = some (.jarr noms) →
      (.jobj nf) ∈ noms → getKey nf "nominees" = some (.jarr ns) →
      (.jobj fields) ∈ ns →
      getKey fields "type" = some (.jstr "video") → getKey fields "videoUrl" = none →
      exOk (buildConfig ctx src).1 = false)
  ∧ (∀ (out : List (String × JVal)) (st : RunState) (noms ns : List JVal)
      (nf : List (String × JVal)),
      buildConfig ctx src = (.ok out, st) →
      getKey src "nominations" = some (.jarr noms) →
      (.jobj nf) ∈ noms → getKey nf "nominees" = some (.jarr ns) →
      ∀ n ∈ ns, ∃ (st1 : RunState) (r : Option JVal) (st2 : RunState),
        resolveNominee ctx st1 n = (.ok r, st2)) := by
  refine ⟨fun st fields hty hvid => resolveNominee_video_missing ctx st fields hty hvid,
    ?_, ?_⟩
  · intro noms ns nf fields hnoms hnom hnf hmem hty hvid
    have hbad : ∀ st : RunState,
        resolveNominee ctx st (.jobj fields)
          = (.error "Video nominee is missing \"videoUrl\"", st) :=
      fun st => resolveNominee_video_missing ctx st fields hty hvid
    have habort := processNomination_abort hbad hnf hmem
    have hall := buildNominations_abort habort noms initialState hnom
    rcases hb : buildNominations ctx initialState noms with ⟨r, st1⟩
    rw [hb] at hall
    cases r with
    | error e2 =>
      rw [buildConfig_eq ctx src noms hnoms, hb]
      simp [exOk]
    | ok rest1 => simp [exOk] at hall
  · intro out st noms ns nf h hnoms hnom hnf
    rw [buildConfig_eq ctx src noms hnoms] at h
    rcases hb : buildNominations ctx initialState noms with ⟨r, st1⟩
    rw [hb] at h
    cases r with
    | error e2 => simp at h
    | ok noms1 =>
      obtain ⟨sta, nom1, stb, hpn⟩ := buildNominations_ok_each noms initialState
        noms1 st1 hb (.jobj nf) hnom
      exact processNomination_ok_each hnf hpn

/-- Witness for C2: a document with one nomination containing one video
nominee without `videoUrl` resolves that nominee to the named error and
the whole run yields no output; conversely a run that succeeds (same
document with a proper nominee) resolved its nominee. -/
theorem c2_video_missing_url_witness :
    resolveNominee ctx0 initialState (.jobj [("type", .jstr "video")])
      = (.error "Video nominee is missing \"videoUrl\"", initialState)
  ∧ exOk (buildConfig ctx0
      [("nominations", .jarr [.jobj [("nominees",
        .jarr [.jobj [("type", .jstr "video")]])]])]).1 = false
  ∧ (∃ (st1 : RunState) (r : Option JVal) (st2 : RunState),
      resolveNominee ctx0 st1 (.jstr "a.png") = (.ok r, st2)) := by
  refine ⟨?_, ?_, ?_⟩
  · exact (c2_video_missing_url ctx0 []).1 initialState [("type", .jstr "video")] rfl rfl
  · exact (c2_video_missing_url ctx0
      [("nominations", .jarr [.jobj [("nominees",
        .jarr [.jobj [("type", .jstr "video")]])]])]).2.1
      [.jobj [("nominees", .jarr [.jobj [("type", .jstr "video")]])]]
      [.jobj [("type", .jstr "video")]]
      [("nominees", .jarr [.jobj [("type", .jstr "video")]])]
      [("type", .jstr "video")]
      rfl (by simp) rfl (by simp) rfl rfl
  · exact (c2_video_missing_url ctx0
      [("nominations", .jarr [.jobj [("nominees", .jarr [.jstr "a.png"])]])]).2.2
      ((buildConfig ctx0
        [("nominations", .jarr [.jobj [("nominees", .jarr [.jstr "a.png"])]])]).1.toOption.getD [])
      ((buildConfig ctx0
        [("nominations", .jarr [.jobj [("nominees", .jarr [.jstr "a.png"])]])]).2)
      [.jobj [("nominees", .jarr [.jstr "a.png"])]]
      [.jstr "a.png"]
      [("nominees", .jarr [.jstr "a.png"])]
      rfl rfl (by simp) rfl (.jstr "a.png") (by simp)

/-! ### The member cache is consulted before the endpoint (C3) -/

theorem fetchMember_hit {ctx : Ctx} {st : RunState} {u : JVal} {m : Member}
    (hc : getKey st.cache (jsToString u) = some m) :
    fetchMember ctx st u = (.ok m, st) := by
  simp [fetchMember, hc]

theorem fetchMember_miss {ctx : Ctx} {st : RunState} {u : JVal}
    (hc : getKey st.cache (jsToString u) = none) :
    fetchMember ctx st u
      = (match (apiRun ("/guilds/" ++ ctx.guildId ++ "/members/" ++ jsToString u)
            (ctx.sched (jsToString u)) (ctx.jit (jsToString u)) API_RETRIES).result with
         | .error e => (.error e, ⟨st.cache, st.calls ++ [jsToString u]⟩)
         | .ok j =>
           match memberOfJson (jsToString u) j with
           | .error e => (.error e, ⟨st.cache, st.calls ++ [jsToString u]⟩)
           | .ok m => (.ok m, ⟨st.cache ++ [(jsToString u, m)], st.calls ++ [jsToString u]⟩)) := by
  simp only [fetchMember, hc]

theorem fetchMember_calls_inv (ctx : Ctx) (st : RunState) (u : JVal) (hok : CallsOK st) :
    (fetchMember ctx st u).2.calls.Nodup
      ∧ (∀ m : Member, (fetchMember ctx st u).1 = .ok m → CallsOK (fetchMember ctx st u).2) := by
  obtain ⟨hnd, hmem⟩ := hok
  cases hc : getKey st.cache (jsToString u) with
  | some m =>
    rw [fetchMember_hit hc]
    exact ⟨hnd, fun _ _ => ⟨hnd, hmem⟩⟩
  | none =>
    have hkey : jsToString u ∉ st.calls := by
      intro hin
      have h2 := hmem _ hin
      rw [hc] at h2
      simp at h2
    have hnd1 : (st.calls ++ [jsToString u]).Nodup := by
      simp [List.nodup_append, hnd, hkey]
    rw [fetchMember_miss hc]
    split
    · exact ⟨hnd1, fun m hm => by simp at hm⟩
    · split
      · exact ⟨hnd1, fun m hm => by simp at hm⟩
      · refine ⟨hnd1, fun m2 hm2 => ⟨hnd1, fun k hk => ?_⟩⟩
        rcases List.mem_append.mp hk with hk1 | hk2
        · obtain ⟨w, hw⟩ := Option.isSome_iff_exists.mp (hmem k hk1)
          rw [getKey_append_some hw]
          rfl
        · have hkeq : k = jsToString u := by simpa using hk2
          subst hkeq
          rw [getKey_append_none hc]
          simp [getKey]

theorem resolveNominee_calls_inv (ctx : Ctx) (st : RunState) (n : JVal)
    (hok : CallsOK st) :
    (resolveNominee ctx st n).2.calls.Nodup
      ∧ (∀ r : Option JVal, (resolveNominee ctx st n).1 = .ok r →
          CallsOK (resolveNominee ctx st n).2) := by
  unfold resolveNominee
  split
  · exact ⟨hok.1, fun _ _ => hok⟩
  split
  · exact ⟨hok.1, fun _ _ => hok⟩
  split
  · exact ⟨hok.1, fun _ _ => hok⟩
  split
  · exact ⟨hok.1, fun _ _ => hok⟩
  split
  · exact ⟨hok.1, fun _ _ => hok⟩
  rename_i fields hfields hemp ty hty
  split
  · rename_i idv hid
    split
    · rename_i hcond
      have hfc := fetchMember_calls_inv ctx st idv hok
      split
      · rename_i m st1 hfm
        rw [hfm] at hfc
        exact ⟨hfc.1, fun r _ => hfc.2 m rfl⟩
      · rename_i e st1 hfm
        rw [hfm] at hfc
        exact ⟨hfc.1, fun r hr => by simp at hr⟩
    · exact ⟨hok.1, fun _ _ => hok⟩
  · exact ⟨hok.1, fun _ _ => hok⟩

theorem resolveAll_calls_inv (ctx : Ctx) :
    ∀ (ns : List JVal) (st : RunState), CallsOK st →
      (resolveAll ctx st ns).2.calls.Nodup
        ∧ (∀ out : List JVal, (resolveAll ctx st ns).1 = .ok out →
            CallsOK (resolveAll ctx st ns).2) := by
  intro ns
  induction ns with
  | nil => exact fun st hok => ⟨hok.1, fun _ _ => hok⟩
  | cons n rest ih =>
    intro st hok
    have h1 := resolveNominee_calls_inv ctx st n hok
    rcases hr : resolveNominee ctx st n with ⟨r, st1⟩
    rw [hr] at h1
    cases r with
    | error e =>
      simp only [resolveAll, hr]
      exact ⟨h1.1, fun out hout => by simp at hout⟩
    | ok r0 =>
      have hok1 : CallsOK st1 := h1.2 r0 rfl
      have h2 := ih st1 hok1
      rcases hra : resolveAll ctx st1 rest with ⟨r2, st2⟩
      rw [hra] at h2
      cases r2 with
      | error e =>
        simp only [resolveAll, hr, hra]
        exact ⟨h2.1, fun out hout => by simp at hout⟩
      | ok out2 =>
        simp only [resolveAll, hr, hra]
        exact ⟨h2.1, fun out hout => h2.2 out2 rfl⟩

theorem processNomination_calls_inv (ctx : Ctx) (st : RunState) (nom : JVal)
    (hok : CallsOK st) :
    (processNomination ctx st nom).2.calls.Nodup
      ∧ (∀ v : JVal, (processNomination ctx st nom).1 = .ok v →
          CallsOK (processNomination ctx st nom).2) := by
  unfold processNomination
  split
  · exact ⟨hok.1, fun _ _ => hok⟩
  split
  · exact ⟨hok.1, fun _ _ => hok⟩
  rename_i hnn ns hns
  have h1 := resolveAll_calls_inv ctx ns st hok
  split
  · rename_i e st1 hra
    rw [hra] at h1
    exact ⟨h1.1, fun v hv => by simp at hv⟩
  · rename_i out st1 hra
    rw [hra] at h1
    split
    · exact ⟨h1.1, fun v hv => by simp at hv⟩
    · exact ⟨h1.1, fun v hv => h1.2 out rfl⟩

theorem buildNominations_calls_inv (ctx : Ctx) :
    ∀ (noms : List JVal) (st : RunState), CallsOK st →
      (buildNominations ctx st noms).2.calls.Nodup := by
  intro noms
  induction noms with
  | nil => exact fun st hok => hok.1
  | cons nom rest ih =>
    intro st hok
    have h1 := processNomination_calls_inv ctx st nom hok
    rcases hp : processNomination ctx st nom with ⟨r, st1⟩
    rw [hp] at h1
    cases r with
    | error e =>
      simp only [buildNominations, hp]
      exact h1.1
    | ok nom1 =>
      have hok1 : CallsOK st1 := h1.2 nom1 rfl
      have h2 := ih st1 hok1
      rcases hb : buildNominations ctx st1 rest with ⟨r2, st2⟩
      rw [hb] at h2
      cases r2 with
      | error e =>
        simp only [buildNominations, hp, hb]
        exact h2
      | ok rest1 =>
        simp only [buildNominations, hp, hb]
        exact h2

set_option maxHeartbeats 1000000 in
theorem buildConfig_state (ctx : Ctx) (src : List (String × JVal)) :
    (buildConfig ctx src).2 = initialState
    ∨ ∃ noms : List JVal,
        (buildConfig ctx src).2 = (buildNominations ctx initialState noms).2 := by
  cases ho : orEmptyList (getKey (normalizeTexts src) "nominations") with
  | error e => left; simp [buildConfig, ho]
  | ok noms =>
    right
    refine ⟨noms, ?_⟩
    rcases hbn : buildNominations ctx initialState noms with ⟨r, st⟩
    cases r <;> simp [buildConfig, ho, hbn]

/-- C3: within one run, the member endpoint is called at most once per
user id — the calls log of the final run state (successful or aborted)
never repeats an id, because the first resolution caches the profile (or
aborts the run on failure) and the second resolution is served from the
in-run cache. -/
theorem c3_member_endpoint_once (ctx : Ctx) (src : List (String × JVal)) (id : String) :
    ((buildConfig ctx src).2).calls.count id ≤ 1 := by
  have h0 : CallsOK initialState := ⟨List.nodup_nil, by simp [initialState, getKey]⟩
  have hnd : ((buildConfig ctx src).2).calls.Nodup := by
    rcases buildConfig_state ctx src with h | ⟨noms, h⟩
    · rw [h]; exact List.nodup_nil
    · rw [h]; exact buildNominations_calls_inv ctx noms initialState h0
  exact List.nodup_iff_count_le_one.mp hnd id

/-! ### The run output is a function of the oracle alone (C9) -/

theorem apiLoop_5xx_retry (path : String) (resp : ℕ → Resp) (jit : ℕ → ℕ)
    (R attempt fuel : ℕ) (h5a : 500 ≤ (resp attempt).status)
    (h5b : (resp attempt).status ≤ 599) (hlt : attempt < R) :
    apiLoop path resp jit R attempt (fuel + 1)
      = ⟨(apiLoop path resp jit R (attempt + 1) fuel).result,
         250 * (attempt + 1) :: (apiLoop path resp jit R (attempt + 1) fuel).sleeps,
         (apiLoop path resp jit R (attempt + 1) fuel).fetches + 1⟩ := by
  have hne : ¬ (resp attempt).status = 429 := by omega
  have hnle : ¬ R ≤ attempt := Nat.not_le.mpr hlt
  simp [apiLoop, beq_iff_eq, hne, h5a, h5b, hnle]

theorem apiLoop_5xx_exhaust (path : String) (resp : ℕ → Resp) (jit : ℕ → ℕ)
    (R attempt fuel : ℕ) (h5a : 500 ≤ (resp attempt).status)
    (h5b : (resp attempt).status ≤ 599) (hge : R ≤ attempt) :
    apiLoop path resp jit R attempt (fuel + 1)
      = ⟨.error ("Discord API " ++ toString (resp attempt).status ++ ": "
          ++ (resp attempt).text), [], 1⟩ := by
  have hne : ¬ (resp attempt).status = 429 := by omega
  simp [apiLoop, beq_iff_eq, hne, h5a, h5b, hge]

theorem api_result_faithful {v : JVal} (path : String) (resp : ℕ → Resp)
    (jit : ℕ → ℕ) (R : ℕ)
    (hf : ∀ i, (resp i).status = 429
      ∨ (500 ≤ (resp i).status ∧ (resp i).status ≤ 599)
      ∨ (200 ≤ (resp i).status ∧ (resp i).status < 300 ∧ (resp i).json = .ok v)) :
    ∀ (fuel attempt : ℕ) (w : JVal),
      (apiLoop path resp jit R attempt fuel).result = .ok w → w = v := by
  intro fuel
  induction fuel with
  | zero => intro attempt w hw; simp [apiLoop] at hw
  | succ f ih =>
    intro attempt w hw
    rcases hf attempt with h429 | ⟨h5a, h5b⟩ | ⟨h2a, h2b, hjson⟩
    · by_cases hle : R ≤ attempt
      · rw [apiLoop_429_exhaust path resp jit R attempt f h429 hle] at hw
        simp at hw
      · rw [apiLoop_429_retry path resp jit R attempt f h429 (Nat.lt_of_not_le hle)] at hw
        exact ih (attempt + 1) w hw
    · by_cases hle : R ≤ attempt
      · rw [apiLoop_5xx_exhaust path resp jit R attempt f h5a h5b hle] at hw
        simp at hw
      · rw [apiLoop_5xx_retry path resp jit R attempt f h5a h5b (Nat.lt_of_not_le hle)] at hw
        exact ih (attempt + 1) w hw
    · rw [apiLoop_success path resp jit R attempt f h2a h2b] at hw
      simp only [hjson] at hw
      exact (Except.ok.inj hw).symm

theorem fetchMember_canon {ctx : Ctx} {oracle : String → JVal} {st : RunState}
    {u : JVal} {m : Member} {st1 : RunState}
    (hf : Faithful ctx oracle) (hcc : CacheCanon oracle st)
    (h : fetchMember ctx st u = (.ok m, st1)) :
    canonMember oracle (jsToString u) = .ok m ∧ CacheCanon oracle st1 := by
  cases hc : getKey st.cache (jsToString u) with
  | some m0 =>
    rw [fetchMember_hit hc] at h
    simp [Prod.ext_iff] at h
    obtain ⟨hm, hst⟩ := h
    subst hm
    subst hst
    exact ⟨hcc _ _ hc, hcc⟩
  | none =>
    rw [fetchMember_miss hc] at h
    split at h
    · simp [Prod.ext_iff] at h
    · rename_i j ha
      split at h
      · simp [Prod.ext_iff] at h
      · rename_i m0 hmj
        have hj : j = oracle (jsToString u) :=
          api_result_faithful ("/guilds/" ++ ctx.guildId ++ "/members/" ++ jsToString u)
            (ctx.sched (jsToString u)) (ctx.jit (jsToString u)) API_RETRIES
            (hf (jsToString u)) (API_RETRIES + 1) 0 j ha
        simp [Prod.ext_iff] at h
        obtain ⟨hm, hst⟩ := h
        subst hm
        have hcanon : canonMember oracle (jsToString u) = .ok m0 := by
          unfold canonMember
          rw [← hj]
          exact hmj
        refine ⟨hcanon, ?_⟩
        intro k mk hk
        rw [← hst] at hk
        simp only at hk
        cases hck : getKey st.cache k with
        | some w =>
          rw [getKey_append_some hck] at hk
          obtain hkw := Option.some.inj hk
          subst hkw
          exact hcc _ _ hck
        | none =>
          rw [getKey_append_none hck] at hk
          simp only [getKey] at hk
          split at hk
          · rename_i hkeq
            obtain hkm := Option.some.inj hk
            subst hkm
            have : jsToString u = k := by simpa using hkeq
            rw [← this]
            exact hcanon
          · simp at hk

theorem resolveNominee_canon {ctx : Ctx} {oracle : String → JVal} {st : RunState}
    {n : JVal} {r : Option JVal} {st1 : RunState}
    (hf : Faithful ctx oracle) (hcc : CacheCanon oracle st)
    (h : resolveNominee ctx st n = (.ok r, st1)) :
    resolveNomineeCanon oracle n = .ok r ∧ CacheCanon oracle st1 := by
  cases ht : jsTruthy n with
  | false =>
    rw [show resolveNominee ctx st n = (.ok none, st) by simp [resolveNominee, ht]] at h
    simp [Prod.ext_iff] at h
    obtain ⟨hr, hst⟩ := h
    subst hr
    subst hst
    exact ⟨by simp [resolveNomineeCanon, ht], hcc⟩
  | true =>
    cases hli : looksLikeImagePath n with
    | true =>
      rw [show resolveNominee ctx st n = (.ok (some (imageShorthand (jsToString n))), st) by
        simp [resolveNominee, ht, hli]] at h
      simp [Prod.ext_iff] at h
      obtain ⟨hr, hst⟩ := h
      subst hr
      subst hst
      exact ⟨by simp [resolveNomineeCanon, ht, hli], hcc⟩
    | false =>
      cases hof : objectFields n with
      | none =>
        rw [show resolveNominee ctx st n = (.ok none, st) by
          simp [resolveNominee, ht, hli, hof]] at h
        simp [Prod.ext_iff] at h
        obtain ⟨hr, hst⟩ := h
        subst hr
        subst hst
        exact ⟨by simp [resolveNomineeCanon, ht, hli, hof], hcc⟩
      | some fields =>
        cases hemp : fields.isEmpty with
        | true =>
          rw [show resolveNominee ctx st n = (.ok none, st) by
            simp [resolveNominee, ht, hli, hof, hemp]] at h
          simp [Prod.ext_iff] at h
          obtain ⟨hr, hst⟩ := h
          subst hr
          subst hst
          exact ⟨by simp [resolveNomineeCanon, ht, hli, hof, hemp], hcc⟩
        | false =>
          cases hty : typeOfFields fields with
          | error e =>
            rw [show resolveNominee ctx st n = (.error e, st) by
              simp [resolveNominee, ht, hli, hof, hemp, hty]] at h
            simp [Prod.ext_iff] at h
          | ok ty =>
            cases hid : getKey fields "id" with
            | none =>
              rw [show resolveNominee ctx st n = (resolveTail fields ty, st) by
                simp [resolveNominee, ht, hli, hof, hemp, hty, hid]] at h
              have hcanon : resolveNomineeCanon oracle n = resolveTail fields ty := by
                simp [resolveNomineeCanon, ht, hli, hof, hemp, hty, hid]
              rcases hpr : resolveTail fields ty with e | r0
              · rw [hpr] at h
                simp [Prod.ext_iff] at h
              · rw [hpr] at h
                simp [Prod.ext_iff] at h
                obtain ⟨hr, hst⟩ := h
                subst hr
                subst hst
                exact ⟨hcanon.trans hpr, hcc⟩
            | some idv =>
              cases hcond : ((ty == "" || ty == "discord" || ty == "member")
                  && jsTruthy idv) with
              | false =>
                rw [show resolveNominee ctx st n = (resolveTail fields ty, st) by
                  simp [resolveNominee, ht, hli, hof, hemp, hty, hid, hcond]] at h
                have hcanon : resolveNomineeCanon oracle n = resolveTail fields ty := by
                  simp [resolveNomineeCanon, ht, hli, hof, hemp, hty, hid, hcond]
                rcases hpr : resolveTail fields ty with e | r0
                · rw [hpr] at h
                  simp [Prod.ext_iff] at h
                · rw [hpr] at h
                  simp [Prod.ext_iff] at h
                  obtain ⟨hr, hst⟩ := h
                  subst hr
                  subst hst
                  exact ⟨hcanon.trans hpr, hcc⟩
              | true =>
                rcases hfm : fetchMember ctx st idv with ⟨fr, stf⟩
                cases fr with
                | error e =>
                  rw [show resolveNominee ctx st n = (.error e, stf) by
                    simp [resolveNominee, ht, hli, hof, hemp, hty, hid, hcond, hfm]] at h
                  simp [Prod.ext_iff] at h
                | ok m =>
                  rw [show resolveNominee ctx st n
                      = (.ok (some (.jobj (buildDiscordObj fields m))), stf) by
                    simp [resolveNominee, ht, hli, hof, hemp, hty, hid, hcond, hfm]] at h
                  simp [Prod.ext_iff] at h
                  obtain ⟨hr, hst⟩ := h
                  subst hr
                  subst hst
                  obtain ⟨hcanonm, hcc1⟩ := fetchMember_canon hf hcc hfm
                  refine ⟨?_, hcc1⟩
                  simp [resolveNomineeCanon, ht, hli, hof, hemp, hty, hid, hcond, hcanonm]

theorem resolveAll_canon {ctx : Ctx} {oracle : String → JVal} (hf : Faithful ctx oracle) :
    ∀ (ns : List JVal) (st : RunState) (out : List JVal) (st2 : RunState),
      CacheCanon oracle st → resolveAll ctx st ns = (.ok out, st2) →
      resolveAllCanon oracle ns = .ok out ∧ CacheCanon oracle st2 := by
  intro ns
  induction ns with
  | nil =>
    intro st out st2 hcc h
    simp [resolveAll, Prod.ext_iff] at h
    obtain ⟨ho, hs⟩ := h
    subst ho
    subst hs
    exact ⟨rfl, hcc⟩
  | cons n rest ih =>
    intro st out st2 hcc h
    rcases hr : resolveNominee ctx st n with ⟨r0, stA⟩
    cases r0 with
    | error e =>
      simp only [resolveAll, hr] at h
      simp [Prod.ext_iff] at h
    | ok r =>
      simp only [resolveAll, hr] at h
      obtain ⟨hcn, hccA⟩ := resolveNominee_canon hf hcc hr
      rcases hra : resolveAll ctx stA rest with ⟨r2, stB⟩
      cases r2 with
      | error e =>
        simp only [hra] at h
        simp [Prod.ext_iff] at h
      | ok out2 =>
        simp only [hra] at h
        obtain ⟨hcl, hccB⟩ := ih stA out2 stB hccA hra
        simp [Prod.ext_iff] at h
        obtain ⟨ho, hs⟩ := h
        subst hs
        refine ⟨?_, hccB⟩
        simp only [resolveAllCanon, hcn, hcl]
        rw [← ho]

theorem processNomination_canon {ctx : Ctx} {oracle : String → JVal}
    (hf : Faithful ctx oracle) {st : RunState} {nom v : JVal} {st2 : RunState}
    (hcc : CacheCanon oracle st)
    (h : processNomination ctx st nom = (.ok v, st2)) :
    processNominationCanon oracle nom = .ok v ∧ CacheCanon oracle st2 := by
  cases nom
  case jnull => simp [processNomination, Prod.ext_iff] at h
  all_goals (
    simp only [processNomination] at h
    simp only [processNominationCanon]
    rcases ho : orEmptyList (jget _ "nominees") with e | ns <;> simp only [ho] at h ⊢
    · simp [Prod.ext_iff] at h
    · rcases hra : resolveAll ctx st ns with ⟨r, stB⟩
      rw [hra] at h
      cases r with
      | error e => simp [Prod.ext_iff] at h
      | ok out =>
        obtain ⟨hcl, hccB⟩ := resolveAll_canon hf ns st out stB hcc hra
        simp only [hcl]
        rcases hsp : setNomineesProp _ (.jarr out) with e | nom1 <;> simp only [hsp] at h ⊢
        · simp [Prod.ext_iff] at h
        · simp [Prod.ext_iff] at h
          obtain ⟨hv, hs⟩ := h
          subst hv
          subst hs
          exact ⟨rfl, hccB⟩)

theorem buildNominations_canon {ctx : Ctx} {oracle : String → JVal}
    (hf : Faithful ctx oracle) :
    ∀ (noms : List JVal) (st : RunState) (outs : List JVal) (st2 : RunState),
      CacheCanon oracle st → buildNominations ctx st noms = (.ok outs, st2) →
      buildNominationsCanon oracle noms = .ok outs ∧ CacheCanon oracle st2 := by
  intro noms
  induction noms with
  | nil =>
    intro st outs st2 hcc h
    simp [buildNominations, Prod.ext_iff] at h
    obtain ⟨ho, hs⟩ := h
    subst ho
    subst hs
    exact ⟨rfl, hcc⟩
  | cons nom rest ih =>
    intro st outs st2 hcc h
    rcases hp : processNomination ctx st nom with ⟨r, stA⟩
    cases r with
    | error e =>
      simp only [buildNominations, hp] at h
      simp [Prod.ext_iff] at h
    | ok nom1 =>
      simp only [buildNominations, hp] at h
      obtain ⟨hcn, hccA⟩ := processNomination_canon hf hcc hp
      rcases hb : buildNominations ctx stA rest with ⟨r2, stB⟩
      cases r2 with
      | error e =>
        simp only [hb] at h
        simp [Prod.ext_iff] at h
      | ok rest1 =>
        simp only [hb] at h
        obtain ⟨hcl, hccB⟩ := ih stA rest1 stB hccA hb
        simp [Prod.ext_iff] at h
        obtain ⟨ho, hs⟩ := h
        subst hs
        refine ⟨?_, hccB⟩
        simp only [buildNominationsCanon, hcn, hcl]
        rw [← ho]

set_option maxHeartbeats 1000000 in
theorem buildConfig_canon {ctx : Ctx} {oracle : String → JVal}
    {src out : List (String × JVal)} {st : RunState} (hf : Faithful ctx oracle)
    (h : buildConfig ctx src = (.ok out, st)) :
    buildConfigCanon oracle src = .ok out := by
  have hcc0 : CacheCanon oracle initialState := by
    intro k m hk
    simp [initialState, getKey] at hk
  unfold buildConfigCanon
  rcases ho : orEmptyList (getKey (normalizeTexts src) "nominations") with e | noms <;>
    simp only [ho]
  · have hrun : buildConfig ctx src = (.error e, initialState) := by
      simp [buildConfig, ho]
    rw [hrun] at h
    simp [Prod.ext_iff] at h
  · rcases hb : buildNominations ctx initialState noms with ⟨r, stB⟩
    cases r with
    | error e2 =>
      have hrun : buildConfig ctx src = (.error e2, stB) := by
        simp [buildConfig, ho, hb]
      rw [hrun] at h
      simp [Prod.ext_iff] at h
    | ok noms1 =>
      have hrun : buildConfig ctx src
          = (.ok (match getKey (normalizeTexts src) "nominations" with
             | some (.jarr _) => objSet (normalizeTexts src) "nominations" (.jarr noms1)
             | _ => normalizeTexts src), stB) := by
        simp [buildConfig, ho, hb]
      rw [hrun] at h
      obtain ⟨hcl, _⟩ := buildNominations_canon hf noms initialState noms1 stB hcc0 hb
      simp only [hcl]
      simp [Prod.ext_iff] at h
      rw [← h.1]

/-- C9: for a fixed input document and a fixed external identity state
(each user id always resolving to the same profile body), the produced
output document is a deterministic function of the document and the
identity responses: two runs under arbitrary (and different) rate-limit
schedules, transient server errors, jitter draws and pacing that both
complete successfully produce equal documents, hence byte-identical
serialized output files. -/
theorem c9_run_deterministic (oracle : String → JVal) (ctx1 ctx2 : Ctx)
    (src o1 o2 : List (String × JVal)) (st1 st2 : RunState)
    (hf1 : Faithful ctx1 oracle) (hf2 : Faithful ctx2 oracle)
    (h1 : buildConfig ctx1 src = (.ok o1, st1))
    (h2 : buildConfig ctx2 src = (.ok o2, st2)) :
    o1 = o2 ∧ serializeDoc o1 = serializeDoc o2 := by
  have e1 := buildConfig_canon hf1 h1
  have e2 := buildConfig_canon hf2 h2
  rw [e1] at e2
  have ho : o1 = o2 := Except.ok.inj e2
  exact ⟨ho, by rw [ho]⟩

/-- Witness for C9: the trivial immediate-success schedule and a
schedule with one 429 before each success, under different jitter
streams, produce the same output document for `srcW`. -/
theorem c9_run_deterministic_witness :
    Faithful ctx0 oracleW
  ∧ Faithful ctxW2 oracleW
  ∧ exceptValD (buildConfig ctx0 srcW).1 = exceptValD (buildConfig ctxW2 srcW).1 := by
  have hf1 : Faithful ctx0 oracleW := by
    intro id i
    right; right
    exact ⟨by simp [ctx0], by simp [ctx0], rfl⟩
  have hf2 : Faithful ctxW2 oracleW := by
    intro id i
    cases i with
    | zero => left; rfl
    | succ k =>
      right; right
      exact ⟨by simp [ctxW2], by simp [ctxW2], rfl⟩
  refine ⟨hf1, hf2, ?_⟩
  have h1 : buildConfig ctx0 srcW
      = (.ok (exceptValD (buildConfig ctx0 srcW).1), (buildConfig ctx0 srcW).2) := rfl
  have h2 : buildConfig ctxW2 srcW
      = (.ok (exceptValD (buildConfig ctxW2 srcW).1), (buildConfig ctxW2 srcW).2) := rfl
  exact (c9_run_deterministic oracleW ctx0 ctxW2 srcW
    (exceptValD (buildConfig ctx0 srcW).1) (exceptValD (buildConfig ctxW2 srcW).1)
    (buildConfig ctx0 srcW).2 (buildConfig ctxW2 srcW).2 hf1 hf2 h1 h2).1

end ZeartAwards
